import Mathlib

/-!
Shallow embedding of the LevelKit-Text interpreter core
(`src/levelkit_text/engine/core.py`, `src/levelkit_text/game/xp.py`,
`src/levelkit_text/game/defaults.py`) together with proofs about the
properties claimed of it.  Python dictionaries are modelled as association
lists (first binding wins on lookup, in-place update on write), Python ints
as `Int`, Python floats as `Rat` (all float literals appearing in the source
are exact dyadics), and the pseudorandom source as an injectable stream of
draws, mirroring the deterministic-source requirement of the design.
-/

namespace LevelKit

/-! ### Association lists standing in for Python dicts -/

/-- `m.get(k)` on a Python dict. -/
def dget? {β : Type} (m : List (String × β)) (k : String) : Option β :=
  match m.find? (fun kv => kv.1 = k) with
  | some kv => some kv.2
  | none => none

/-- `m.get(k, d)` on a Python dict. -/
def dgetD {β : Type} (m : List (String × β)) (k : String) (d : β) : β :=
  (dget? m k).getD d

/-- `m[k] = v` on a Python dict: replace in place, else append. -/
def dset {β : Type} (m : List (String × β)) (k : String) (v : β) :
    List (String × β) :=
  match m with
  | [] => [(k, v)]
  | kv :: rest =>
      if kv.1 = k then (k, v) :: rest else kv :: dset rest k v

/-- `m.pop(k, None)` on a Python dict (the removal part). -/
def dpop {β : Type} (m : List (String × β)) (k : String) :
    List (String × β) :=
  match m with
  | [] => []
  | kv :: rest => if kv.1 = k then rest else kv :: dpop rest k

/-- Truthiness of an optional string in Python (`None` and `""` are falsy). -/
def optStrTruthy : Option String → Bool
  | some s => !s.isEmpty
  | none => false

/-- Python `int(x)` on a float: truncation toward zero. -/
def truncToInt (q : ℚ) : ℤ := if q < 0 then ⌈q⌉ else ⌊q⌋

/-- Python `str.lower()`, as a character-wise map. -/
def pyLower (s : String) : String := String.mk (s.data.map Char.toLower)

/-- Python `str.upper()`, as a character-wise map. -/
def pyUpper (s : String) : String := String.mk (s.data.map Char.toUpper)

/-- The clamp `max(0.0, min(1.0, x))` used for chances. -/
def clamp01 (q : ℚ) : ℚ := max 0 (min 1 q)

/-! ### Data model (`engine/models.py`) -/

/-- `Stats` dataclass. -/
structure Stats where
  hp : ℤ
  max_hp : ℤ
  mana : ℤ
  max_mana : ℤ
  stamina : ℤ
  attack : ℤ
  defence : ℤ
  xp : ℤ
deriving DecidableEq, Repr

/-- The attribute names of the `Stats` dataclass, as probed by
`hasattr(self.stats, stat_name)`. -/
inductive StatName where
  | hp | max_hp | mana | max_mana | stamina | attack | defence | xp
deriving DecidableEq, Repr

/-- `hasattr(self.stats, name)` together with attribute resolution. -/
def statNameOf (name : String) : Option StatName :=
  if name = "hp" then some .hp
  else if name = "max_hp" then some .max_hp
  else if name = "mana" then some .mana
  else if name = "max_mana" then some .max_mana
  else if name = "stamina" then some .stamina
  else if name = "attack" then some .attack
  else if name = "defence" then some .defence
  else if name = "xp" then some .xp
  else none

/-- `getattr(self.stats, name)`. -/
def getStat (st : Stats) : StatName → ℤ
  | .hp => st.hp
  | .max_hp => st.max_hp
  | .mana => st.mana
  | .max_mana => st.max_mana
  | .stamina => st.stamina
  | .attack => st.attack
  | .defence => st.defence
  | .xp => st.xp

/-- `setattr(self.stats, name, v)`. -/
def setStat (st : Stats) : StatName → ℤ → Stats
  | .hp, v => { st with hp := v }
  | .max_hp, v => { st with max_hp := v }
  | .mana, v => { st with mana := v }
  | .max_mana, v => { st with max_mana := v }
  | .stamina, v => { st with stamina := v }
  | .attack, v => { st with attack := v }
  | .defence, v => { st with defence := v }
  | .xp, v => { st with xp := v }

/-- The Stats invariant stated by the specification. -/
def statInvariant (st : Stats) : Prop := 0 ≤ st.hp ∧ st.hp ≤ st.max_hp

instance statInvariantDecidable (st : Stats) :
    Decidable (statInvariant st) :=
  inferInstanceAs (Decidable (0 ≤ st.hp ∧ st.hp ≤ st.max_hp))

/-- An item or weapon definition as it is read out of the id-keyed
definition dictionaries (`definition.get(...)` accesses). -/
structure ItemDef where
  name : String
  category : String
  weaponType : Option String
  effects : List (String × ℤ)
deriving DecidableEq, Repr

/-- `Enemy` dataclass. -/
structure Enemy where
  id : String
  name : String
  hp : ℤ
  attack : ℤ
  defence : ℤ
  loot : List String
deriving DecidableEq, Repr

/-! ### Requirement evaluator (`GameApp._evaluate_requirement`) -/

/-- The recognized requirement-expression shapes.  The source inspects a
dict for the keys `flag`, `not_flag`, `min`, `alert_below`, `all`, `any` in
that fixed order and falls through to `True` for any other shape; each node
here is one dict classified by its first matching key. -/
inductive ReqExpr where
  | flagCheck (f : String)
  | notFlag (f : String)
  | minCheck (reqs : List (String × ℤ))
  | alertBelow (n : ℤ)
  | allOf (es : List ReqExpr)
  | anyOf (es : List ReqExpr)
  | other

/-! ### Battle content (`engine/models.py`) -/

/-- `BattleAction` dataclass (fields consulted by the combat resolver). -/
structure BattleAction where
  kind : String
  label : String
  bonus : ℤ := 0
  variance : ℤ := 2
  stat : Option String := none
  gte : Option ℤ := none
  success_damage : ℤ := 0
  fail_damage : ℤ := 0
  success_heal : ℤ := 0
  fail_heal : ℤ := 0
  mana_cost : ℤ := 0
  requiresWeaponType : Option String := none
  requiresWeaponId : Option String := none
  ammoItem : Option String := none
  ammoCost : ℤ := 1
  hitChance : ℚ := 1
  showIfUnavailable : Bool := false
deriving DecidableEq, Repr

/-- One entry of a loot table, a dict with keys
`item`, `chance`, `unique`, `unique_key`. -/
structure LootEntry where
  item : Option String := none
  chance : ℚ := 1
  unique : Bool := false
  uniqueKey : Option String := none
deriving DecidableEq, Repr

/-- `BattleSpec` dataclass (fields consulted by the combat resolver). -/
structure BattleSpec where
  id : String
  title : String
  enemy : Enemy
  actions : List BattleAction
  victoryTo : Option String := none
  defeatTo : Option String := none
  victoryText : String := "Victory."
  defeatText : String := "Defeat."
  lootTable : List LootEntry := []
  lootRolls : ℤ := 1
deriving DecidableEq, Repr

/-- The transient `self.current_battle` dict built by `start_battle`. -/
structure BattleEncounter where
  spec : BattleSpec
  optionTo : Option String
  enemyHp : ℤ
  repeatKey : Option String
deriving DecidableEq, Repr

/-- The `effects` dict attached to an option, read through
`effects.get(...)` with `isinstance` guards; absent or ill-typed keys are
`none` here. -/
structure RollCheck where
  passChance : ℚ := 1
  failText : Option String := none
  successText : Option String := none
  onFailAlert : Option ℤ := none
  hpDeltaOnFail : Option ℤ := none
deriving DecidableEq, Repr

structure EffectsMap where
  equipItems : List String := []
  timerRooms : Option ℤ := none
  setMap : Option (List (String × ℤ)) := none
  incMap : Option (List (String × ℤ)) := none
  energyCost : Option ℤ := none
  alert : Option ℤ := none
  enemyStunned : Option ℤ := none
  rollCheck : Option RollCheck := none
  hpDeltaOnFail : Option ℤ := none
  alertOnFail : Option ℤ := none
  onFailAlert : Option ℤ := none
deriving DecidableEq, Repr

/-- `OptionSpec` dataclass (fields consulted by `_apply_option_effects`). -/
structure OptionSpec where
  label : String
  toRoom : Option String := none
  battleId : Option String := none
  requireExpr : Option ReqExpr := none
  gainItems : List String := []
  requiresFlag : Option String := none
  requiresNotFlag : Option String := none
  setFlag : Option String := none
  clearFlag : Option String := none
  effects : EffectsMap := {}
  lootTable : List LootEntry := []
  lootRolls : ℤ := 1

/-- The two weapon slots of `self.equipment`
(initialised `{"melee": None, "ranged": None}`). -/
structure Equipment where
  melee : Option String := none
  ranged : Option String := none
deriving DecidableEq, Repr

/-- `self.equipment.get(slot)`. -/
def equipGet (e : Equipment) (slot : String) : Option String :=
  if slot = "melee" then e.melee
  else if slot = "ranged" then e.ranged
  else none

/-- Assignment `self.equipment[slot] = v` (only ever performed on the
`melee` and `ranged` keys, the only slots `_weapon_slot` produces). -/
def equipSet (e : Equipment) (slot : String) (v : Option String) :
    Equipment :=
  if slot = "melee" then { e with melee := v }
  else if slot = "ranged" then { e with ranged := v }
  else e

/-- `self.equipment.values()`. -/
def equipValues (e : Equipment) : List (Option String) := [e.melee, e.ranged]

/-- The configuration module (`game/defaults.py` plus the engine-level
fallback item table), as read through `getattr(self.defaults, ...)`. -/
structure Defaults where
  ITEM_DEFINITIONS : List (String × ItemDef) := []
  ENGINE_ITEM_DEFINITIONS : List (String × ItemDef) := []
  DAMAGE_VARIANCE : ℤ := 2
  CRIT_CHANCE : ℚ := 0
  CRIT_MULTIPLIER : ℚ := 3 / 2
  XP_PER_VICTORY : ℤ := 5
  MANA_PER_ROOM : ℚ := 1 / 4
  START_ROOM_ID : String := "start"
  DEFEAT_ROOM_ID : String := "start"

/-- The injectable pseudorandom source: a stream of `random.random()`
draws and a stream of `random.randint` draws, each with a cursor. -/
structure Rng where
  floats : ℕ → ℚ
  ints : ℕ → ℕ
  fIdx : ℕ := 0
  iIdx : ℕ := 0

/-- `random.random()`. -/
def nextFloat (rng : Rng) : ℚ × Rng :=
  (rng.floats rng.fIdx, { rng with fIdx := rng.fIdx + 1 })

/-- `random.randint(0, n)`: the source supplies a value reduced into the
inclusive range `[0, n]`. -/
def nextInt (rng : Rng) (n : ℕ) : ℕ × Rng :=
  (rng.ints rng.iIdx % (n + 1), { rng with iIdx := rng.iIdx + 1 })

/-- The mutable per-session game state held on `GameApp`. -/
structure GameState where
  stats : Stats
  inventory : List (String × ℤ) := []
  equipment : Equipment := {}
  flags : List (String × ℤ) := []
  timedFlags : List (String × ℤ) := []
  alertLevel : ℤ := 0
  currentRoomId : Option String := none
  currentBattle : Option BattleEncounter := none
  battleRepeatTracker : List (String × ℤ) := []
  uniqueLootAwards : List String := []
  manaRegenReserve : ℚ := 0
  pendingRoomTransition : Option String := none

/-- The state built in `GameApp.__init__` before the initial `go_to`. -/
def initialState (stats : Stats) : GameState := { stats := stats }

/-! ### Requirement evaluator (`GameApp._evaluate_requirement`) -/

/-- `GameApp._flag_value`. -/
def flagValue (s : GameState) (f : String) : ℤ := dgetD s.flags f 0

mutual

/-- `GameApp._evaluate_requirement` (the `all`/`any` branches walk their
sub-expression lists with Python short-circuit semantics). -/
def evaluateRequirement (s : GameState) : ReqExpr → Bool
  | .flagCheck f => decide (flagValue s f > 0)
  | .notFlag f => decide (flagValue s f = 0)
  | .minCheck reqs => reqs.all (fun kv => decide (flagValue s kv.1 ≥ kv.2))
  | .alertBelow n => decide (s.alertLevel < n)
  | .allOf es => evaluateAllReqs s es
  | .anyOf es => evaluateAnyReqs s es
  | .other => true

def evaluateAllReqs (s : GameState) : List ReqExpr → Bool
  | [] => true
  | e :: rest => evaluateRequirement s e && evaluateAllReqs s rest

def evaluateAnyReqs (s : GameState) : List ReqExpr → Bool
  | [] => false
  | e :: rest => evaluateRequirement s e || evaluateAnyReqs s rest

end

/-! ### Flag helpers (`_set_flag`, `_clear_flag`) -/

/-- `GameApp._set_flag`: write the flag, reporting whether it changed. -/
def setFlagState (s : GameState) (f : String) (v : ℤ) : GameState × Bool :=
  if dget? s.flags f = some v then (s, false)
  else ({ s with flags := dset s.flags f v }, true)

/-- `GameApp._clear_flag`: drop the flag and any timed entry for it. -/
def clearFlagState (s : GameState) (f : String) : GameState × Bool :=
  let removed := (dget? s.flags f).isSome
  ({ s with flags := dpop s.flags f, timedFlags := dpop s.timedFlags f },
   removed)

/-! ### Loot resolver (`GameApp._roll_loot_table`) -/

/-- The key under which a unique award is recorded:
`entry.get("unique_key") or item`. -/
def lootUniqueKey (entry : LootEntry) (item : String) : String :=
  match entry.uniqueKey with
  | some k => if k.isEmpty then item else k
  | none => item

/-- One attempt: scan the table in order, stopping at the first award.
A draw is consumed only when the clamped chance is below one; a unique
entry whose key was already awarded is skipped and the scan continues.
Returns the award (item paired with the unique key recorded for it, if
any), the updated `unique_awards` set and the advanced random source. -/
def rollLootScan (uniq : List String) (rng : Rng) :
    List LootEntry → Option (String × Option String) × List String × Rng
  | [] => (none, uniq, rng)
  | entry :: rest =>
      match entry.item with
      | none => rollLootScan uniq rng rest
      | some item =>
          if item.isEmpty then rollLootScan uniq rng rest
          else
            let chance := clamp01 entry.chance
            let drawn :=
              if chance < 1 then
                let (draw, rng1) := nextFloat rng
                (decide (¬draw > chance), rng1)
              else (true, rng)
            if drawn.1 then
              if entry.unique then
                let key := lootUniqueKey entry item
                if key ∈ uniq then rollLootScan uniq drawn.2 rest
                else (some (item, some key), key :: uniq, drawn.2)
              else (some (item, none), uniq, drawn.2)
            else rollLootScan uniq drawn.2 rest

/-- The attempt loop of `_roll_loot_table`, keeping the full award
records (item, unique key used). -/
def rollLootAttempts (table : List LootEntry) :
    ℕ → List String → Rng →
    List (String × Option String) × List String × Rng
  | 0, uniq, rng => ([], uniq, rng)
  | n + 1, uniq, rng =>
      let (award, uniq1, rng1) := rollLootScan uniq rng table
      let (restAwards, uniq2, rng2) := rollLootAttempts table n uniq1 rng1
      (award.toList ++ restAwards, uniq2, rng2)

/-- `GameApp._roll_loot_table`, instrumented to keep the unique key of
each award next to the awarded item id. -/
def rollLootTable (table : List LootEntry) (rolls : ℤ)
    (uniq : List String) (rng : Rng) :
    List (String × Option String) × List String × Rng :=
  if table = [] then ([], uniq, rng)
  else rollLootAttempts table (max 1 rolls).toNat uniq rng

/-- The item-id list the source function returns. -/
def rollLootItems (table : List LootEntry) (rolls : ℤ)
    (uniq : List String) (rng : Rng) : List String :=
  ((rollLootTable table rolls uniq rng).1).map Prod.fst

/-! ### XP progression curve (`game/xp.py`) -/

/-- `XP_LEVEL_REQUIREMENTS`. -/
def XP_LEVEL_REQUIREMENTS : List ℤ := [50, 90, 140, 200, 270]

/-- `XP_GROWTH_FACTOR` (the float literal `1.25`). -/
def XP_GROWTH_FACTOR : ℚ := 5 / 4

/-- `_xp_requirement_for_index`. -/
def xpRequirementForIndex (index : ℕ) : ℤ :=
  if h : index < XP_LEVEL_REQUIREMENTS.length then
    max 1 (XP_LEVEL_REQUIREMENTS.get ⟨index, h⟩)
  else
    match XP_LEVEL_REQUIREMENTS.getLast? with
    | none => 100
    | some base =>
        max 1 ⌈(base : ℚ) *
          XP_GROWTH_FACTOR ^ (index + 1 - XP_LEVEL_REQUIREMENTS.length)⌉

/-- The per-level requirement is always at least one. -/
theorem xpRequirementForIndex_pos (index : ℕ) :
    1 ≤ xpRequirementForIndex index := by
  unfold xpRequirementForIndex
  split
  · exact le_max_left _ _
  · split
    · norm_num
    · exact le_max_left _ _

/-- The natural-number amount of xp still to spend; requirements are
positive so this is how the loop of `xp_curve` consumes its budget. -/
def xpCurveGo (remaining level index : ℕ) : ℕ × ℕ × ℤ :=
  let req := xpRequirementForIndex index
  if h : (remaining : ℤ) < req then (level, remaining, req)
  else xpCurveGo (remaining - req.toNat) (level + 1) (index + 1)
termination_by remaining
decreasing_by
  have hpos := xpRequirementForIndex_pos index
  have h1 : (1 : ℤ) ≤ (remaining : ℤ) := le_trans hpos (not_lt.mp h)
  have h2 : 1 ≤ req.toNat := by
    simpa using Int.toNat_le_toNat hpos
  omega

/-- `xp_curve(total_xp)`: returns `(level, progress, target)`. -/
def xp_curve (totalXp : ℤ) : ℕ × ℕ × ℤ :=
  xpCurveGo (max 0 totalXp).toNat 1 0

/-! ### Item registry (`defaults.py` merge, `GameApp._item_definition`) -/

/-- The Python dict merge `{**base, **extra}`: start from `base` and
write every binding of `extra` over it, later bindings winning. -/
def dictMerge {β : Type} (base extra : List (String × β)) :
    List (String × β) :=
  extra.foldl (fun acc kv => dset acc kv.1 kv.2) base

/-- `ITEM_DEFINITIONS = {**BASE_ITEM_DEFINITIONS, **WEAPON_DEFINITIONS}`
in `game/defaults.py`: the startup item registry. -/
def assembleItemDefinitions (base weapons : List (String × ItemDef)) :
    List (String × ItemDef) :=
  dictMerge base weapons

/-- `GameApp._item_definition`: the configured registry first, the
engine-level default table second, then a bare fallback definition. -/
def itemDefinition (d : Defaults) (itemId : String) : ItemDef :=
  match dget? d.ITEM_DEFINITIONS itemId with
  | some defn => defn
  | none =>
      match dget? d.ENGINE_ITEM_DEFINITIONS itemId with
      | some defn => defn
      | none => { name := itemId, category := "", weaponType := none,
                  effects := [] }

/-! ### Equipment (`_equip_weapon`, `_unequip_weapon`,
`_apply_weapon_effects`, `_weapon_slot`) -/

/-- `GameApp._weapon_slot`. -/
def weaponSlot (defn : ItemDef) : String :=
  if pyLower (defn.weaponType.getD "melee") = "ranged" then "ranged"
  else "melee"

/-- One iteration of the `_apply_weapon_effects` loop. -/
def applyWeaponEffectsStep (remove : Bool) (acc : GameState)
    (kv : String × ℤ) : GameState :=
  match statNameOf kv.1 with
  | some sn =>
      let change := if remove then -kv.2 else kv.2
      { acc with stats := setStat acc.stats sn (getStat acc.stats sn + change) }
  | none => acc

/-- `GameApp._apply_weapon_effects`: add (or, on removal, subtract) every
effect delta whose key names a `Stats` attribute.  No clamping occurs. -/
def applyWeaponEffects (s : GameState) (defn : ItemDef)
    (remove : Bool) : GameState :=
  defn.effects.foldl (applyWeaponEffectsStep remove) s

/-- `GameApp._unequip_weapon`. -/
def unequipWeapon (d : Defaults) (s : GameState) (slot : String) :
    GameState :=
  match equipGet s.equipment slot with
  | none => s
  | some weaponId =>
      if weaponId.isEmpty then s
      else
        let defn := itemDefinition d weaponId
        let s1 := applyWeaponEffects s defn true
        { s1 with equipment := equipSet s1.equipment slot none }

/-- `GameApp._equip_weapon`. -/
def equipWeapon (d : Defaults) (s : GameState) (itemId : String)
    (defn : ItemDef) : GameState × Bool :=
  let slot := weaponSlot defn
  let current := equipGet s.equipment slot
  if current = some itemId then (s, false)
  else
    let s1 := if optStrTruthy current then unequipWeapon d s slot else s
    let s2 := { s1 with equipment := equipSet s1.equipment slot (some itemId) }
    (applyWeaponEffects s2 defn false, true)

/-- One iteration of the `_use_item` effects loop. -/
def applyItemEffectsStep (acc : GameState) (kv : String × ℤ) : GameState :=
  match statNameOf kv.1 with
  | some sn =>
      let value := getStat acc.stats sn + kv.2
      let value :=
        if kv.1 = "hp" then min acc.stats.max_hp (max 0 value) else value
      { acc with stats := setStat acc.stats sn value }
  | none => acc

/-- The effects loop of `GameApp._use_item`: each recognised stat gets the
delta added, with only the `hp` write clamped into `[0, max_hp]`. -/
def applyItemEffects (s : GameState) (effects : List (String × ℤ)) :
    GameState :=
  effects.foldl applyItemEffectsStep s

/-- The inventory decrement at the end of the consumable branch of
`_use_item`. -/
def consumeOneFromInventory (s : GameState) (itemId : String) : GameState :=
  let remaining := dgetD s.inventory itemId 0 - 1
  if remaining ≤ 0 then { s with inventory := dpop s.inventory itemId }
  else { s with inventory := dset s.inventory itemId remaining }

/-- `GameApp._use_item`. -/
def useItem (d : Defaults) (s : GameState) (itemId : String) :
    GameState × Bool :=
  if (dget? s.inventory itemId).isNone then (s, false)
  else
    let defn := itemDefinition d itemId
    if defn.category = "weapon" || optStrTruthy defn.weaponType then
      equipWeapon d s itemId defn
    else if defn.category = "ammo" then (s, false)
    else
      let s1 := applyItemEffects s defn.effects
      let s2 :=
        if defn.category = "consumable" then consumeOneFromInventory s1 itemId
        else s1
      (s2, true)

/-- `GameApp._consume_inventory`. -/
def consumeInventory (s : GameState) (itemId : String) (amount : ℤ) :
    GameState :=
  if amount ≤ 0 then s
  else
    let remaining := dgetD s.inventory itemId 0 - amount
    if remaining ≤ 0 then { s with inventory := dpop s.inventory itemId }
    else { s with inventory := dset s.inventory itemId remaining }

/-! ### Combat damage and hp bookkeeping -/

/-- `GameApp._take_damage`. -/
def takeDamage (s : GameState) (amount : ℤ) : GameState :=
  { s with stats := { s.stats with hp := max 0 (s.stats.hp - amount) } }

/-- `GameApp._heal_player`. -/
def healPlayer (s : GameState) (amount : ℤ) : GameState :=
  { s with stats := { s.stats with hp := min s.stats.max_hp (s.stats.hp + amount) } }

/-- `GameApp._calculate_player_damage`: the damage roll, the double clamp
around the defence subtraction, and the critical-hit branch (which draws
only when the configured crit chance is positive). -/
def calculatePlayerDamage (d : Defaults) (s : GameState)
    (bonus variance : ℤ) (rng : Rng) : ℤ × Rng :=
  let totalVariance := max 0 (variance + d.DAMAGE_VARIANCE)
  let (roll, rng1) := nextInt rng totalVariance.toNat
  let damage : ℤ := max 0 (s.stats.attack + bonus + (roll : ℤ))
  let damage : ℤ :=
    match s.currentBattle with
    | some cb => damage - cb.spec.enemy.defence
    | none => damage
  let damage : ℤ := max 0 damage
  if d.CRIT_CHANCE > 0 then
    let (draw, rng2) := nextFloat rng1
    if draw < d.CRIT_CHANCE then
      (truncToInt ((damage : ℚ) * d.CRIT_MULTIPLIER), rng2)
    else (damage, rng2)
  else (damage, rng1)

/-- `GameApp._enemy_attack`: returns the state, the advanced source and
the narration lines. -/
def enemyAttack (d : Defaults) (enemy : Enemy) (s : GameState)
    (rng : Rng) : GameState × Rng × List String :=
  let variance := d.DAMAGE_VARIANCE
  let (roll, rng1) := nextInt rng (max 0 variance).toNat
  let damage := max 0 (enemy.attack + (roll : ℤ) - s.stats.defence)
  if damage > 0 then
    (takeDamage s damage, rng1,
     [enemy.name ++ " strikes for damage!"])
  else (s, rng1, [enemy.name ++ " attack glances off your armour."])

/-! ### Timed flags, regeneration and navigation
(`_tick_timed_flags`, `_regen_mana`, `go_to`) -/

/-- `flag.replace("_", " ").capitalize()`. -/
def humanFlagName (f : String) : String :=
  let r := f.replace "_" " "
  pyUpper (r.take 1) ++ pyLower (r.drop 1)

/-- The loop body of `_tick_timed_flags`: walk the timed-flag entries in
order, decrement each, and expire (dropping the flag and emitting a fades
message when the flag was present) the ones that reach zero. -/
def tickTimedGo : List (String × ℤ) → List (String × ℤ) →
    List (String × ℤ) × List (String × ℤ) × List String
  | [], flags => ([], flags, [])
  | (f, c) :: rest, flags =>
      let remaining := c - 1
      if remaining ≤ 0 then
        let present := (dget? flags f).isSome
        let (t1, fl1, msgs) := tickTimedGo rest (dpop flags f)
        (t1, fl1,
         (if present then [humanFlagName f ++ " fades."] else []) ++ msgs)
      else
        let (t1, fl1, msgs) := tickTimedGo rest flags
        ((f, remaining) :: t1, fl1, msgs)

/-- `GameApp._tick_timed_flags`. -/
def tickTimedFlags (s : GameState) : GameState × List String :=
  let (t1, fl1, msgs) := tickTimedGo s.timedFlags s.flags
  ({ s with timedFlags := t1, flags := fl1 }, msgs)

/-- `GameApp._regen_mana`: the fractional accumulator pattern, with
`int(reserve)` truncating the reserve. -/
def regenMana (d : Defaults) (s : GameState) : GameState :=
  if d.MANA_PER_ROOM ≤ 0 then s
  else
    let reserve := s.manaRegenReserve + d.MANA_PER_ROOM
    let points := truncToInt reserve
    if points ≤ 0 then { s with manaRegenReserve := reserve }
    else
      { s with
        manaRegenReserve := reserve - points,
        stats := { s.stats with
          mana := min s.stats.max_mana (s.stats.mana + points) } }

/-- `GameApp.go_to` (its state-mutating core): a missing room id degrades
to a message; non-initial transitions first tick the timed flags and then
regenerate mana; the room switch clears any active battle.  Returns the
state and the expired-flag messages surfaced to the player. -/
def goTo (d : Defaults) (rooms : List String) (roomId : String)
    (initial : Bool) (s : GameState) : GameState × List String :=
  if roomId ∉ rooms then (s, ["Room " ++ roomId ++ " is missing."])
  else
    let (s1, expired) :=
      if initial then (s, [])
      else
        let (sa, msgs) := tickTimedFlags s
        (regenMana d sa, msgs)
    ({ s1 with currentRoomId := some roomId, currentBattle := none },
     expired)

/-! ### Battle outcomes (`_handle_victory`, `_handle_defeat`) -/

/-- `GameApp._collect_loot`: add one inventory count per listed item. -/
def collectLoot (s : GameState) (items : List String) : GameState :=
  if items = [] then s
  else
    let inv1 :=
      items.foldl (fun inv it => dset inv it (dgetD inv it 0 + 1))
        s.inventory
    { s with inventory := inv1 }

/-- `GameApp._handle_victory`. -/
def handleVictory (d : Defaults) (s : GameState) (rng : Rng) :
    GameState × Rng :=
  match s.currentBattle with
  | none => (s, rng)
  | some cb =>
      let battle := cb.spec
      let s1 := { s with stats :=
        { s.stats with xp := s.stats.xp + d.XP_PER_VICTORY } }
      let s2 := collectLoot s1 battle.enemy.loot
      let (records, uniq1, rng1) :=
        rollLootTable battle.lootTable battle.lootRolls
          s2.uniqueLootAwards rng
      let tableLoot := records.map Prod.fst
      let s3 := { s2 with uniqueLootAwards := uniq1 }
      let s4 := if tableLoot ≠ [] then collectLoot s3 tableLoot else s3
      let nextRoom := battle.victoryTo <|> cb.optionTo <|> s.currentRoomId
      let s5 :=
        match cb.repeatKey with
        | some k =>
            if k.isEmpty then s4
            else
              let tracker :=
                dset s4.battleRepeatTracker k
                  (dgetD s4.battleRepeatTracker k 0 + 1)
              { s4 with battleRepeatTracker := tracker }
        | none => s4
      ({ s5 with currentBattle := none,
                 pendingRoomTransition := nextRoom }, rng1)

/-- `GameApp._handle_defeat`: hp restored to `max_hp`, routed to the
configured defeat room, encounter cleared. -/
def handleDefeat (d : Defaults) (s : GameState) : GameState :=
  match s.currentBattle with
  | none => s
  | some cb =>
      let s1 := { s with stats := { s.stats with hp := s.stats.max_hp } }
      let defeatRoom := cb.spec.defeatTo.getD d.DEFEAT_ROOM_ID
      { s1 with currentBattle := none,
                pendingRoomTransition := some defeatRoom }

/-! ### Combat resolver (`_battle_action_available`,
`_resolve_battle_action`) -/

/-- `GameApp._battle_action_available`. -/
def battleActionAvailable (d : Defaults) (s : GameState)
    (a : BattleAction) : Bool × Option String :=
  let weaponGate : Option String :=
    if optStrTruthy a.requiresWeaponType then
      let wt := a.requiresWeaponType.getD ""
      let equipped := equipGet s.equipment wt
      if !optStrTruthy equipped then some ("Requires " ++ wt ++ " weapon")
      else if optStrTruthy a.requiresWeaponId &&
          decide (equipped.getD "" ≠ a.requiresWeaponId.getD "") then
        some ("Requires " ++ (itemDefinition d (a.requiresWeaponId.getD "")).name)
      else none
    else if optStrTruthy a.requiresWeaponId then
      if a.requiresWeaponId ∉ equipValues s.equipment then
        some ("Requires " ++ (itemDefinition d (a.requiresWeaponId.getD "")).name)
      else none
    else none
  match weaponGate with
  | some reason => (false, some reason)
  | none =>
      if optStrTruthy a.ammoItem then
        let cost := max 0 a.ammoCost
        if dgetD s.inventory (a.ammoItem.getD "") 0 < cost then
          (false, some "Out of ammo")
        else (true, none)
      else (true, none)

/-- `self.current_battle["enemy_hp"]` read. -/
def currentEnemyHp (s : GameState) : ℤ :=
  match s.currentBattle with
  | some cb => cb.enemyHp
  | none => 0

/-- `self.current_battle["enemy_hp"] = hp` write. -/
def setEnemyHp (s : GameState) (hp : ℤ) : GameState :=
  match s.currentBattle with
  | some cb => { s with currentBattle := some { cb with enemyHp := hp } }
  | none => s

/-- The shared tail of every losing/forfeiting branch: the enemy
counter-attacks and the player-hp-zero check may hand control to the
defeat handler. -/
def enemyPhase (d : Defaults) (battle : BattleSpec) (s : GameState)
    (rng : Rng) : GameState × Rng :=
  let (s1, rng1, _msgs) := enemyAttack d battle.enemy s rng
  if s1.stats.hp ≤ 0 then (handleDefeat d s1, rng1) else (s1, rng1)

/-- The per-kind dispatch of `_resolve_battle_action`.  The returned flag
marks the insufficient-mana early return of the `cast` branch, which
skips both the victory check and the enemy counter-attack. -/
def resolveKind (d : Defaults) (a : BattleAction) (s : GameState)
    (rng : Rng) : GameState × Rng × Bool :=
  if a.kind = "attack" then
    let (damage, rng1) := calculatePlayerDamage d s a.bonus a.variance rng
    (setEnemyHp s (max 0 (currentEnemyHp s - damage)), rng1, false)
  else if a.kind = "skill_check" then
    let statName := a.stat.getD ""
    let statValue :=
      match statNameOf statName with
      | some sn => getStat s.stats sn
      | none => 0
    let threshold := a.gte.getD 0
    if statValue ≥ threshold then
      let s1 :=
        if a.success_damage ≠ 0 then
          setEnemyHp s (max 0 (currentEnemyHp s - a.success_damage))
        else s
      let s2 := if a.success_heal ≠ 0 then healPlayer s1 a.success_heal else s1
      (s2, rng, false)
    else
      let s1 := if a.fail_damage ≠ 0 then takeDamage s a.fail_damage else s
      let s2 := if a.fail_heal ≠ 0 then healPlayer s1 a.fail_heal else s1
      (s2, rng, false)
  else if a.kind = "cast" then
    if s.stats.mana < a.mana_cost then (s, rng, true)
    else
      let s1 := { s with stats :=
        { s.stats with mana := s.stats.mana - a.mana_cost } }
      let (damage, rng1) := calculatePlayerDamage d s1 a.bonus a.variance rng
      (setEnemyHp s1 (max 0 (currentEnemyHp s1 - damage)), rng1, false)
  else (s, rng, false)

/-- `_resolve_battle_action` after the ammo bookkeeping: the hit-chance
draw for `attack`/`cast` kinds (a miss forfeits the turn to the enemy),
the kind dispatch, then victory check and enemy counter-attack. -/
def resolveAfterAmmo (d : Defaults) (a : BattleAction)
    (battle : BattleSpec) (s : GameState) (rng : Rng) : GameState × Rng :=
  let continueKind := fun (s' : GameState) (rng' : Rng) =>
    let (s2, rng2, aborted) := resolveKind d a s' rng'
    if aborted then (s2, rng2)
    else if currentEnemyHp s2 ≤ 0 then handleVictory d s2 rng2
    else enemyPhase d battle s2 rng2
  if a.kind = "attack" ∨ a.kind = "cast" then
    let chance := clamp01 a.hitChance
    if chance < 1 then
      let (draw, rng1) := nextFloat rng
      if draw > chance then enemyPhase d battle s rng1
      else continueKind s rng1
    else continueKind s rng
  else continueKind s rng

/-- `GameApp._resolve_battle_action`. -/
def resolveBattleAction (d : Defaults) (a : BattleAction) (s : GameState)
    (rng : Rng) : GameState × Rng :=
  match s.currentBattle with
  | none => (s, rng)
  | some cb =>
      let battle := cb.spec
      if !(battleActionAvailable d s a).1 then enemyPhase d battle s rng
      else
        let ammoCost := max 0 a.ammoCost
        if optStrTruthy a.ammoItem ∧ ammoCost ≠ 0 then
          let ai := a.ammoItem.getD ""
          if dgetD s.inventory ai 0 < ammoCost then
            enemyPhase d battle s rng
          else
            resolveAfterAmmo d a battle (consumeInventory s ai ammoCost) rng
        else resolveAfterAmmo d a battle s rng

/-! ### Effects applier (`GameApp._apply_option_effects`) -/

/-- The falsy-aware `a or b` on optional numbers
(`effects.get("alert_on_fail") or effects.get("on_fail_alert")`). -/
def orFalsy (a b : Option ℤ) : Option ℤ :=
  match a with
  | some v => if v = 0 then b else some v
  | none => b

/-- Step 1 of `_apply_option_effects`: literal `gain_items` plus one
loot-table roll, merged into the inventory. -/
def effGainsStep (opt : OptionSpec) (s : GameState) (rng : Rng) :
    GameState × Rng × List String × Bool :=
  let (records, uniq1, rng1) :=
    rollLootTable opt.lootTable opt.lootRolls s.uniqueLootAwards rng
  let gainedItems := opt.gainItems ++ records.map Prod.fst
  let s1 := { s with uniqueLootAwards := uniq1 }
  if gainedItems ≠ [] then
    let inv1 :=
      gainedItems.foldl (fun inv it => dset inv it (dgetD inv it 0 + 1))
        s1.inventory
    ({ s1 with inventory := inv1 }, rng1, ["You obtain items."], true)
  else (s1, rng1, [], false)

/-- Step 2: the legacy `set_flag` short-hand (sets the flag to 1). -/
def effSetFlagStep (opt : OptionSpec) (s : GameState) (refresh : Bool) :
    GameState × Bool :=
  if optStrTruthy opt.setFlag then
    let r := setFlagState s (opt.setFlag.getD "") 1
    (r.1, refresh || r.2)
  else (s, refresh)

/-- Step 3: `effects.equip_item` — equip each owned weapon candidate. -/
def effEquipStep (d : Defaults) (opt : OptionSpec) (s : GameState)
    (msgs : List String) (refresh : Bool) :
    GameState × List String × Bool :=
  opt.effects.equipItems.foldl
    (fun acc itemId =>
      if dgetD acc.1.inventory itemId 0 ≤ 0 then acc
      else
        let defn := itemDefinition d itemId
        if defn.category ≠ "weapon" ∧ ¬optStrTruthy defn.weaponType then
          acc
        else
          let r := equipWeapon d acc.1 itemId defn
          if r.2 then
            (r.1, acc.2.1 ++ [defn.name ++ " equipped."], true)
          else (r.1, acc.2.1, acc.2.2))
    (s, msgs, refresh)

/-- One iteration of the `effects.set` loop. -/
def effSetMapFoldStep (timerRoomsValue : Option ℤ)
    (acc : GameState × Bool) (kv : String × ℤ) : GameState × Bool :=
  let r := setFlagState acc.1 kv.1 kv.2
  let s' :=
    match timerRoomsValue with
    | some t =>
        if t > 0 then
          { r.1 with timedFlags := dset r.1.timedFlags kv.1 t }
        else r.1
    | none => r.1
  (s', acc.2 || r.2)

/-- Step 5: `effects.set`, arming a timed flag per set key when
`effects.timer_rooms` is positive. -/
def effSetMapStep (opt : OptionSpec) (timerRoomsValue : Option ℤ)
    (s : GameState) (refresh : Bool) : GameState × Bool :=
  match opt.effects.setMap with
  | none => (s, refresh)
  | some m => m.foldl (effSetMapFoldStep timerRoomsValue) (s, refresh)

/-- One iteration of the `effects.inc` loop. -/
def effIncFoldStep (acc : GameState × Bool) (kv : String × ℤ) :
    GameState × Bool :=
  let newValue := dgetD acc.1.flags kv.1 0 + kv.2
  let r := setFlagState acc.1 kv.1 newValue
  (r.1, acc.2 || r.2)

/-- Step 6: `effects.inc`. -/
def effIncStep (opt : OptionSpec) (s : GameState) (refresh : Bool) :
    GameState × Bool :=
  match opt.effects.incMap with
  | none => (s, refresh)
  | some m => m.foldl effIncFoldStep (s, refresh)

/-- Step 7: `effects.energy_cost` — stamina, floored at zero. -/
def effEnergyStep (opt : OptionSpec) (s : GameState) (msgs : List String) :
    GameState × List String :=
  match opt.effects.energyCost with
  | none => (s, msgs)
  | some c =>
      let cost := max 0 c
      if cost ≠ 0 then
        ({ s with stats :=
             { s.stats with stamina := max 0 (s.stats.stamina - cost) } },
         msgs ++ ["You expend stamina."])
      else (s, msgs)

/-- Step 8: `effects.alert` — alert level, floored at zero. -/
def effAlertStep (opt : OptionSpec) (s : GameState) (msgs : List String) :
    GameState × List String :=
  match opt.effects.alert with
  | none => (s, msgs)
  | some delta =>
      if delta ≠ 0 then
        ({ s with alertLevel := max 0 (s.alertLevel + delta) },
         msgs ++ ["Facility alert increases."])
      else (s, msgs)

/-- Step 9: `effects.enemy_stunned` — stored as a flag. -/
def effStunStep (opt : OptionSpec) (s : GameState) (refresh : Bool) :
    GameState × Bool :=
  match opt.effects.enemyStunned with
  | none => (s, refresh)
  | some v =>
      let r := setFlagState s "enemy_stunned" v
      (r.1, refresh || r.2)

/-- Step 10: `effects.roll_check` — one draw consumed whenever the key is
present.  Returns state, source, messages, the fail flag and the hp delta
accumulated for step 13. -/
def effRollCheckStep (opt : OptionSpec) (s : GameState) (rng : Rng)
    (msgs : List String) : GameState × Rng × List String × Bool × ℤ :=
  match opt.effects.rollCheck with
  | none => (s, rng, msgs, false, 0)
  | some rc =>
      let chance := clamp01 rc.passChance
      let (draw, rngA) := nextFloat rng
      if draw > chance then
        let m1 := msgs ++
          [if optStrTruthy rc.failText then rc.failText.getD ""
           else "The attempt draws suspicion."]
        let sm :=
          match rc.onFailAlert with
          | some fa =>
              ({ s with alertLevel := max 0 (s.alertLevel + fa) },
               m1 ++ ["Security tightens."])
          | none => (s, m1)
        (sm.1, rngA, sm.2, true, rc.hpDeltaOnFail.getD 0)
      else
        (s, rngA,
         (if optStrTruthy rc.successText then msgs ++ [rc.successText.getD ""]
          else msgs), false, 0)

/-- Step 11: `clear_flag` on the option. -/
def effClearFlagStep (opt : OptionSpec) (s : GameState) (refresh : Bool) :
    GameState × Bool :=
  if optStrTruthy opt.clearFlag then
    let r := clearFlagState s (opt.clearFlag.getD "")
    (r.1, refresh || r.2)
  else (s, refresh)

/-- Step 12: the duplicate-path timed-flag re-arm for the legacy
`set_flag`. -/
def effTimerRearmStep (opt : OptionSpec) (timerRoomsValue : Option ℤ)
    (s : GameState) : GameState :=
  match timerRoomsValue with
  | some t =>
      if t ≠ 0 ∧ optStrTruthy opt.setFlag then
        let timed := dset s.timedFlags (opt.setFlag.getD "") t
        { s with timedFlags := timed }
      else s
  | none => s

/-- Step 13: deferred fail consequences — the module-level fail alert and
the accumulated hp delta, clamped into `[0, max_hp]`. -/
def effFailStep (opt : OptionSpec) (failTriggered : Bool) (hpFail : ℤ)
    (s : GameState) (msgs : List String) : GameState × List String :=
  if failTriggered then
    let s' :=
      match orFalsy opt.effects.alertOnFail opt.effects.onFailAlert with
      | some v => { s with alertLevel := max 0 (s.alertLevel + v) }
      | none => s
    if hpFail ≠ 0 then
      ({ s' with stats :=
           { s'.stats with
             hp := max 0 (min s'.stats.max_hp (s'.stats.hp + hpFail)) } },
       msgs ++ [if hpFail < 0 then "You lose HP." else "You recover HP."])
    else (s', msgs)
  else (s, msgs)

/-- `GameApp._apply_option_effects`, step for step in source order.
Returns the state, the advanced random source, the accumulated message
lines and the option-refresh flag. -/
def applyOptionEffects (d : Defaults) (opt : OptionSpec) (s : GameState)
    (rng : Rng) : GameState × Rng × List String × Bool :=
  let (s2, rng1, msgs2, refresh2) := effGainsStep opt s rng
  let (s3, refresh3) := effSetFlagStep opt s2 refresh2
  let (s4, msgs4, refresh4) := effEquipStep d opt s3 msgs2 refresh3
  let timerRoomsValue : Option ℤ := opt.effects.timerRooms.map (max 0)
  let (s5, refresh5) := effSetMapStep opt timerRoomsValue s4 refresh4
  let (s6, refresh6) := effIncStep opt s5 refresh5
  let (s7, msgs7) := effEnergyStep opt s6 msgs4
  let (s8, msgs8) := effAlertStep opt s7 msgs7
  let (s9, refresh9) := effStunStep opt s8 refresh6
  let (s10, rng10, msgs10, failTriggered, hpFail0) :=
    effRollCheckStep opt s9 rng1 msgs8
  let hpFail := hpFail0 + opt.effects.hpDeltaOnFail.getD 0
  let (s11, refresh11) := effClearFlagStep opt s10 refresh9
  let s12 := effTimerRearmStep opt timerRoomsValue s11
  let (s13, msgs13) := effFailStep opt failTriggered hpFail s12 msgs10
  (s13, rng10, msgs13, refresh11)

/-- `STARTING_STATS` of `game/defaults.py`. -/
def STARTING_STATS : Stats :=
  { hp := 10, max_hp := 10, mana := 5, max_mana := 5, stamina := 5,
    attack := 1, defence := 0, xp := 0 }

/-! ## Theorems -/

/-! ### Progression curve (claim C8) -/

/-- Unfolding equation for the level loop. -/
theorem xpCurveGo_eq (r l i : ℕ) : xpCurveGo r l i =
    if (r : ℤ) < xpRequirementForIndex i then
      (l, r, xpRequirementForIndex i)
    else xpCurveGo (r - (xpRequirementForIndex i).toNat) (l + 1) (i + 1) := by
  rw [xpCurveGo]
  split <;> rfl

/-- The loop exits with a remainder strictly below the exit requirement. -/
theorem xpCurveGo_progress (r l i : ℕ) :
    ((xpCurveGo r l i).2.1 : ℤ) < (xpCurveGo r l i).2.2 := by
  induction r using Nat.strong_induction_on generalizing l i with
  | _ r ih =>
    rw [xpCurveGo_eq]
    by_cases h : (r : ℤ) < xpRequirementForIndex i
    · rw [if_pos h]; exact h
    · rw [if_neg h]
      have hpos := xpRequirementForIndex_pos i
      exact ih _ (by omega) _ _

/-- The loop never returns a level below its accumulator. -/
theorem xpCurveGo_level_le (r l i : ℕ) : l ≤ (xpCurveGo r l i).1 := by
  induction r using Nat.strong_induction_on generalizing l i with
  | _ r ih =>
    rw [xpCurveGo_eq]
    by_cases h : (r : ℤ) < xpRequirementForIndex i
    · rw [if_pos h]
    · rw [if_neg h]
      have hpos := xpRequirementForIndex_pos i
      exact le_trans (Nat.le_succ l) (ih _ (by omega) _ _)

/-- More xp to spend never lowers the computed level. -/
theorem xpCurveGo_mono (r r' l i : ℕ) (hr : r ≤ r') :
    (xpCurveGo r l i).1 ≤ (xpCurveGo r' l i).1 := by
  induction r' using Nat.strong_induction_on generalizing r l i with
  | _ r' ih =>
    rw [xpCurveGo_eq r, xpCurveGo_eq r']
    have hpos := xpRequirementForIndex_pos i
    by_cases h' : (r' : ℤ) < xpRequirementForIndex i
    · rw [if_pos h', if_pos (by omega : (r : ℤ) < xpRequirementForIndex i)]
    · rw [if_neg h']
      by_cases h : (r : ℤ) < xpRequirementForIndex i
      · rw [if_pos h]
        calc l ≤ l + 1 := Nat.le_succ l
          _ ≤ _ := xpCurveGo_level_le _ _ _
      · rw [if_neg h]
        exact ih _ (by omega) _ _ _ (by omega)

/-- C8: for every total xp the progression curve returns
`(level, progress, target)` with `progress < target`, and the returned
level is monotonically non-decreasing in the total xp. -/
theorem xp_curve_progress_lt_target_and_level_monotone (a b : ℤ)
    (hab : a ≤ b) :
    ((xp_curve a).2.1 : ℤ) < (xp_curve a).2.2 ∧
      (xp_curve a).1 ≤ (xp_curve b).1 := by
  refine ⟨xpCurveGo_progress _ _ _, xpCurveGo_mono _ _ _ _ ?_⟩
  omega

/-- Witness for C8 at `total_xp = 0` and `total_xp = 100`. -/
theorem xp_curve_progress_lt_target_and_level_monotone_witness :
    (0 : ℤ) ≤ 100 ∧
      (((xp_curve 0).2.1 : ℤ) < (xp_curve 0).2.2 ∧
        (xp_curve 0).1 ≤ (xp_curve 100).1) :=
  ⟨by norm_num, xp_curve_progress_lt_target_and_level_monotone 0 100 (by norm_num)⟩

/-! ### Requirement evaluator (claim C2) -/

/-- C2 fails as stated once a flag holds a negative value: both
`{flag: F}` and `{not_flag: F}` then evaluate to `False`.  This closed
counterexample exhibits the mismatch at `flags = {"wanted": -1}`. -/
theorem notFlag_negation_counterexample :
    evaluateRequirement
        { initialState STARTING_STATS with flags := [("wanted", -1)] }
        (.notFlag "wanted") ≠
      !evaluateRequirement
        { initialState STARTING_STATS with flags := [("wanted", -1)] }
        (.flagCheck "wanted") := by
  decide

/-- C2 (amended): whenever the flag value is non-negative — in
particular whenever the flag is absent — `{not_flag: F}` evaluates to the
boolean negation of `{flag: F}`. -/
theorem notFlag_is_negation_of_flag (s : GameState) (f : String)
    (h : 0 ≤ flagValue s f) :
    evaluateRequirement s (.notFlag f) =
      !evaluateRequirement s (.flagCheck f) := by
  simp only [evaluateRequirement, ← decide_not]
  exact decide_eq_decide.mpr (by omega)

/-- Witness for the amended C2 at `flags = {"wanted": 2}`. -/
theorem notFlag_is_negation_of_flag_witness :
    0 ≤ flagValue
        { initialState STARTING_STATS with flags := [("wanted", 2)] }
        "wanted" ∧
      evaluateRequirement
          { initialState STARTING_STATS with flags := [("wanted", 2)] }
          (.notFlag "wanted") =
        !evaluateRequirement
            { initialState STARTING_STATS with flags := [("wanted", 2)] }
            (.flagCheck "wanted") :=
  ⟨by decide,
   notFlag_is_negation_of_flag
     { initialState STARTING_STATS with flags := [("wanted", 2)] }
     "wanted" (by decide)⟩

/-! ### Association-list lemmas -/

theorem dget?_nil {β : Type} (k : String) :
    dget? ([] : List (String × β)) k = none := rfl

theorem dget?_cons {β : Type} (a : String) (b : β)
    (rest : List (String × β)) (k : String) :
    dget? ((a, b) :: rest) k = if a = k then some b else dget? rest k := by
  by_cases h : a = k <;> simp [dget?, List.find?, h]

theorem dget?_dset_self {β : Type} (m : List (String × β)) (k : String)
    (v : β) : dget? (dset m k v) k = some v := by
  induction m with
  | nil => simp [dset, dget?_cons]
  | cons kv rest ih =>
      rcases kv with ⟨a, b⟩
      by_cases h : a = k
      · subst h
        simp [dset, dget?_cons]
      · simp [dset, h, dget?_cons, ih]

theorem dget?_dset_ne {β : Type} (m : List (String × β)) (k k' : String)
    (v : β) (h : k' ≠ k) : dget? (dset m k v) k' = dget? m k' := by
  induction m with
  | nil => simp [dset, dget?_cons, dget?_nil, Ne.symm h]
  | cons kv rest ih =>
      rcases kv with ⟨a, b⟩
      by_cases ha : a = k
      · subst ha
        simp [dset, dget?_cons, Ne.symm h]
      · simp [dset, ha, dget?_cons, ih]

theorem dget?_dictMerge_not_mem {β : Type} (base ws : List (String × β))
    (k : String) (h : k ∉ ws.map Prod.fst) :
    dget? (dictMerge base ws) k = dget? base k := by
  induction ws generalizing base with
  | nil => rfl
  | cons kv rest ih =>
      simp only [List.map_cons, List.mem_cons, not_or] at h
      simpa [dictMerge, List.foldl_cons] using
        (ih (dset base kv.1 kv.2) h.2).trans
          (dget?_dset_ne base kv.1 k kv.2 h.1)

/-! ### Item registry assembly (claim C9) -/

/-- A base item definition and a weapon definition sharing the id used in
the duplicate-id counterexample. -/
def duplicateBaseItem : ItemDef :=
  { name := "Ceremonial Sword", category := "quest", weaponType := none,
    effects := [] }

def duplicateWeaponItem : ItemDef :=
  { name := "Ceremonial Sword", category := "weapon",
    weaponType := some "melee", effects := [("attack", 3)] }

/-- C9 fails as stated: assembling the startup item registry from a base
table and a weapon table that share an id raises no error at all — the
merge `{**base, **weapons}` is a total operation that silently keeps the
weapon entry. -/
theorem assembleItemDefinitions_counterexample :
    assembleItemDefinitions [("sword", duplicateBaseItem)]
        [("sword", duplicateWeaponItem)] =
      [("sword", duplicateWeaponItem)] ∧
      duplicateBaseItem ≠ duplicateWeaponItem := by
  constructor
  · rfl
  · decide

/-- C9 (amended): assembling the startup item registry is a silent dict
merge.  When an id appears in both the base item definitions and the
weapon definitions, no error is raised and the weapon definition is the
one the registry ends up holding. -/
theorem assembleItemDefinitions_weapon_wins
    (base ws : List (String × ItemDef)) (k : String) (v w : ItemDef)
    (hnd : (ws.map Prod.fst).Nodup)
    (hb : dget? base k = some v) (hw : dget? ws k = some w) :
    dget? (assembleItemDefinitions base ws) k = some w := by
  induction ws generalizing base with
  | nil => simp [dget?_nil] at hw
  | cons kv rest ih =>
      rcases kv with ⟨k0, w0⟩
      simp only [List.map_cons, List.nodup_cons] at hnd
      rw [dget?_cons] at hw
      by_cases hk : k0 = k
      · subst hk
        rw [if_pos rfl] at hw
        injection hw with hw
        subst hw
        show dget? (dictMerge (dset base k0 w0) rest) k0 = some w0
        rw [dget?_dictMerge_not_mem _ _ _ hnd.1]
        exact dget?_dset_self base k0 w0
      · rw [if_neg hk] at hw
        show dget? (dictMerge (dset base k0 w0) rest) k = some w
        exact ih (dset base k0 w0) hnd.2
          ((dget?_dset_ne base k0 k w0 (fun he => hk he.symm)).trans hb) hw

/-- Witness for the amended C9 on a two-entry registry. -/
theorem assembleItemDefinitions_weapon_wins_witness :
    ((([("sword", duplicateWeaponItem)] : List (String × ItemDef)).map
        Prod.fst).Nodup ∧
      dget? [("sword", duplicateBaseItem)] "sword" = some duplicateBaseItem ∧
      dget? [("sword", duplicateWeaponItem)] "sword" =
        some duplicateWeaponItem) ∧
      dget? (assembleItemDefinitions [("sword", duplicateBaseItem)]
          [("sword", duplicateWeaponItem)]) "sword" =
        some duplicateWeaponItem :=
  ⟨⟨by decide, by decide, by decide⟩,
   assembleItemDefinitions_weapon_wins _ _ "sword" duplicateBaseItem
     duplicateWeaponItem (by decide) (by decide) (by decide)⟩

/-! ### Loot resolver uniqueness (claim C5) -/

/-- How one scan relates the `unique_awards` set before and after: a
unique award records a fresh key, anything else leaves the set alone. -/
def scanSetSpec (uniq uniq' : List String)
    (award : Option (String × Option String)) : Prop :=
  match award with
  | some (_, some k) => k ∉ uniq ∧ uniq' = k :: uniq
  | _ => uniq' = uniq

theorem rollLootScan_set (table : List LootEntry) (uniq : List String)
    (rng : Rng) :
    scanSetSpec uniq (rollLootScan uniq rng table).2.1
      (rollLootScan uniq rng table).1 := by
  induction table generalizing rng with
  | nil => simp [rollLootScan, scanSetSpec]
  | cons entry rest ih =>
      simp only [rollLootScan]
      cases hit : entry.item with
      | none => exact ih _
      | some item =>
          by_cases hempty : item.isEmpty
          · simp only [if_pos hempty]
            exact ih _
          · simp only [if_neg hempty]
            by_cases hdraw :
                (if clamp01 entry.chance < 1 then
                  ((decide (¬(nextFloat rng).1 > clamp01 entry.chance)),
                    (nextFloat rng).2)
                 else (true, rng)).1 = true
            · simp only [hdraw, if_true]
              by_cases huniq : entry.unique
              · simp only [huniq, if_true]
                by_cases hmem : lootUniqueKey entry item ∈ uniq
                · simp only [if_pos hmem]
                  exact ih _
                · simp only [if_neg hmem]
                  exact ⟨hmem, rfl⟩
              · simp only [huniq, if_false]
                rfl
            · simp only [Bool.not_eq_true] at hdraw
              simp only [hdraw, if_false]
              exact ih _

theorem rollLootAttempts_unique (table : List LootEntry) (n : ℕ)
    (uniq : List String) (rng : Rng) :
    ((rollLootAttempts table n uniq rng).1.filterMap Prod.snd).Nodup ∧
      (∀ k ∈ (rollLootAttempts table n uniq rng).1.filterMap Prod.snd,
        k ∉ uniq) ∧
      (∀ k, k ∈ (rollLootAttempts table n uniq rng).2.1 ↔
        k ∈ (rollLootAttempts table n uniq rng).1.filterMap Prod.snd ∨
          k ∈ uniq) := by
  induction n generalizing uniq rng with
  | zero => simp [rollLootAttempts]
  | succ n ih =>
      have hscan := rollLootScan_set table uniq rng
      rcases hrun : rollLootScan uniq rng table with ⟨award, uniq1, rng1⟩
      rw [hrun] at hscan
      rcases hrest : rollLootAttempts table n uniq1 rng1 with
        ⟨restAwards, uniq2, rng2⟩
      have ih1 := ih uniq1 rng1
      rw [hrest] at ih1
      rcases ih1 with ⟨ihnd, ihfresh, ihmem⟩
      simp only [rollLootAttempts, hrun, hrest]
      rcases award with _ | ⟨it, _ | k0⟩
      · simp only [scanSetSpec] at hscan
        subst hscan
        simp only [Option.toList, List.nil_append]
        exact ⟨ihnd, ihfresh, ihmem⟩
      · simp only [scanSetSpec] at hscan
        subst hscan
        have hred : (Option.toList (some (it, (none : Option String))) ++
            restAwards).filterMap Prod.snd = restAwards.filterMap Prod.snd := by
          simp [Option.toList]
        rw [hred]
        exact ⟨ihnd, ihfresh, ihmem⟩
      · simp only [scanSetSpec] at hscan
        rcases hscan with ⟨hfresh0, hset⟩
        subst hset
        have hred : (Option.toList (some (it, some k0)) ++
            restAwards).filterMap Prod.snd =
            k0 :: restAwards.filterMap Prod.snd := by
          simp [Option.toList]
        rw [hred]
        refine ⟨?_, ?_, ?_⟩
        · refine List.nodup_cons.mpr ⟨fun hk => ?_, ihnd⟩
          exact (ihfresh k0 hk) (List.mem_cons_self k0 uniq)
        · intro k hk
          rcases List.mem_cons.mp hk with hk | hk
          · subst hk; exact hfresh0
          · intro hku
            exact (ihfresh k hk) (List.mem_cons_of_mem _ hku)
        · intro k
          rw [ihmem k]
          simp only [List.mem_cons]
          tauto

/-- C5: across any number of rolls sharing one `unique_awards` set, the
unique keys recorded by awards are pairwise distinct, none of them was in
the set before the roll, and the resulting set is exactly the old set
plus the newly recorded keys — so an entry marked unique is awarded at
most once per key, and a key already present is never awarded again. -/
theorem rollLootTable_unique_awarded_at_most_once (table : List LootEntry)
    (rolls : ℤ) (uniq : List String) (rng : Rng) :
    (((rollLootTable table rolls uniq rng).1.filterMap Prod.snd).Nodup ∧
      (∀ k ∈ (rollLootTable table rolls uniq rng).1.filterMap Prod.snd,
        k ∉ uniq)) ∧
      (∀ k, k ∈ (rollLootTable table rolls uniq rng).2.1 ↔
        k ∈ (rollLootTable table rolls uniq rng).1.filterMap Prod.snd ∨
          k ∈ uniq) := by
  by_cases htab : table = []
  · simp [rollLootTable, htab]
  · simp only [rollLootTable, if_neg htab]
    rcases rollLootAttempts_unique table (max 1 rolls).toNat uniq rng with
      ⟨h1, h2, h3⟩
    exact ⟨⟨h1, h2⟩, h3⟩

/-! ### Stats bookkeeping lemmas -/

theorem getStat_setStat (st : Stats) (sn sn' : StatName) (v : ℤ) :
    getStat (setStat st sn' v) sn = if sn' = sn then v else getStat st sn := by
  cases sn' <;> cases sn <;> simp [getStat, setStat]

theorem stats_ext (a b : Stats) (h : ∀ sn, getStat a sn = getStat b sn) :
    a = b := by
  cases a
  cases b
  have e1 := h .hp
  have e2 := h .max_hp
  have e3 := h .mana
  have e4 := h .max_mana
  have e5 := h .stamina
  have e6 := h .attack
  have e7 := h .defence
  have e8 := h .xp
  simp only [getStat] at e1 e2 e3 e4 e5 e6 e7 e8
  rw [e1, e2, e3, e4, e5, e6, e7, e8]

/-- The total delta a weapon effects map contributes to one stat. -/
def weaponEffectSum : List (String × ℤ) → StatName → ℤ
  | [], _ => 0
  | kv :: rest, sn =>
      (match statNameOf kv.1 with
       | some sn' => if sn' = sn then kv.2 else 0
       | none => 0) + weaponEffectSum rest sn

theorem weaponFold_getStat (l : List (String × ℤ)) (s : GameState)
    (remove : Bool) (sn : StatName) :
    getStat (l.foldl (applyWeaponEffectsStep remove) s).stats sn =
      getStat s.stats sn +
        (if remove then -weaponEffectSum l sn else weaponEffectSum l sn) := by
  induction l generalizing s with
  | nil => simp [weaponEffectSum]
  | cons kv rest ih =>
      rw [List.foldl_cons, ih]
      have hstep : getStat (applyWeaponEffectsStep remove s kv).stats sn =
          getStat s.stats sn +
            (if remove then
               -(match statNameOf kv.1 with
                 | some sn' => if sn' = sn then kv.2 else 0
                 | none => 0)
             else
               (match statNameOf kv.1 with
                | some sn' => if sn' = sn then kv.2 else 0
                | none => 0)) := by
        unfold applyWeaponEffectsStep
        cases hname : statNameOf kv.1 with
        | none => simp
        | some sn' =>
            simp only [getStat_setStat]
            by_cases hsn : sn' = sn
            · subst hsn
              simp
            · simp [hsn]
      rw [hstep]
      have hsum : weaponEffectSum (kv :: rest) sn =
          (match statNameOf kv.1 with
           | some sn' => if sn' = sn then kv.2 else 0
           | none => 0) + weaponEffectSum rest sn := rfl
      rw [hsum]
      cases remove <;> simp <;> ring

theorem weaponFold_equipment (l : List (String × ℤ)) (s : GameState)
    (remove : Bool) :
    (l.foldl (applyWeaponEffectsStep remove) s).equipment = s.equipment := by
  induction l generalizing s with
  | nil => rfl
  | cons kv rest ih =>
      rw [List.foldl_cons, ih]
      unfold applyWeaponEffectsStep
      cases statNameOf kv.1 <;> rfl

/-- Looking the weapon slot back up after writing it. -/
theorem equipGet_equipSet_weaponSlot (e : Equipment) (defn : ItemDef)
    (v : Option String) :
    equipGet (equipSet e (weaponSlot defn) v) (weaponSlot defn) = v := by
  unfold weaponSlot
  split <;> simp [equipGet, equipSet]

/-! ### Equip/unequip round trip (claim C4) -/

/-- The melee weapon already held in the C4 counterexample. -/
def ironSwordDef : ItemDef :=
  { name := "Iron Sword", category := "weapon", weaponType := some "melee",
    effects := [("attack", 10)] }

/-- The melee weapon being equipped in the C4 counterexample. -/
def steelSwordDef : ItemDef :=
  { name := "Steel Sword", category := "weapon", weaponType := some "melee",
    effects := [("attack", 3)] }

/-- The registry and state of the C4 counterexample: the melee slot
already holds the iron sword, whose +10 attack is reflected in the
stats. -/
def occupiedSlotDefaults : Defaults :=
  { ITEM_DEFINITIONS := [("iron_sword", ironSwordDef),
                         ("steel_sword", steelSwordDef)] }

def occupiedSlotState : GameState :=
  { initialState { STARTING_STATS with attack := 11 } with
    equipment := { melee := some "iron_sword" },
    inventory := [("steel_sword", 1)] }

/-- C4 fails as stated when the slot is already occupied: equipping the
steel sword first unequips the iron sword, and unequipping the steel
sword afterwards does not restore the iron sword, leaving attack at 1
instead of the pre-equip 11. -/
theorem equip_unequip_counterexample :
    ((unequipWeapon occupiedSlotDefaults
        (equipWeapon occupiedSlotDefaults occupiedSlotState "steel_sword"
          steelSwordDef).1
        (weaponSlot steelSwordDef)).stats ≠ occupiedSlotState.stats) ∧
      statInvariant occupiedSlotState.stats := by
  constructor
  · decide
  · constructor <;> decide

theorem applyWeaponEffects_equipment (s : GameState) (defn : ItemDef)
    (remove : Bool) :
    (applyWeaponEffects s defn remove).equipment = s.equipment :=
  weaponFold_equipment defn.effects s remove

theorem applyWeaponEffects_getStat (s : GameState) (defn : ItemDef)
    (remove : Bool) (sn : StatName) :
    getStat (applyWeaponEffects s defn remove).stats sn =
      getStat s.stats sn +
        (if remove then -weaponEffectSum defn.effects sn
         else weaponEffectSum defn.effects sn) :=
  weaponFold_getStat defn.effects s remove sn

/-- C4 (amended): when the weapon slot the item maps to is empty,
equipping the item and then immediately unequipping that slot restores
every field of `Stats` exactly (the item id must be non-empty for the
unequip lookup to fire). -/
theorem equip_unequip_restores_stats (d : Defaults) (s : GameState)
    (itemId : String)
    (hslot : equipGet s.equipment (weaponSlot (itemDefinition d itemId)) =
      none)
    (hid : ¬itemId.isEmpty) :
    (unequipWeapon d
        (equipWeapon d s itemId (itemDefinition d itemId)).1
        (weaponSlot (itemDefinition d itemId))).stats = s.stats := by
  have h1 : equipWeapon d s itemId (itemDefinition d itemId) =
      (applyWeaponEffects
        { s with equipment := (equipSet s.equipment
            (weaponSlot (itemDefinition d itemId)) (some itemId)) }
        (itemDefinition d itemId) false, true) := by
    unfold equipWeapon
    simp [hslot, optStrTruthy]
  rw [h1]
  have hget : equipGet
      (applyWeaponEffects
        { s with equipment := (equipSet s.equipment
            (weaponSlot (itemDefinition d itemId)) (some itemId)) }
        (itemDefinition d itemId) false).equipment
      (weaponSlot (itemDefinition d itemId)) = some itemId := by
    rw [applyWeaponEffects_equipment]
    exact equipGet_equipSet_weaponSlot _ _ _
  unfold unequipWeapon
  rw [hget]
  dsimp only
  rw [if_neg hid]
  apply stats_ext
  intro sn
  rw [applyWeaponEffects_getStat, applyWeaponEffects_getStat]
  simp

/-! ### The hp invariant under the state-mutating operations (claim C1) -/

theorem setFlagState_stats (s : GameState) (f : String) (v : ℤ) :
    (setFlagState s f v).1.stats = s.stats := by
  unfold setFlagState
  split <;> rfl

theorem clearFlagState_stats (s : GameState) (f : String) :
    (clearFlagState s f).1.stats = s.stats := rfl

theorem effGainsStep_stats (opt : OptionSpec) (s : GameState) (rng : Rng) :
    (effGainsStep opt s rng).1.stats = s.stats := by
  unfold effGainsStep
  dsimp only
  split <;> rfl

theorem effSetFlagStep_stats (opt : OptionSpec) (s : GameState) (r : Bool) :
    (effSetFlagStep opt s r).1.stats = s.stats := by
  unfold effSetFlagStep
  split
  · exact setFlagState_stats s _ 1
  · rfl

theorem effSetMapFoldStep_stats (t : Option ℤ) (acc : GameState × Bool)
    (kv : String × ℤ) :
    (effSetMapFoldStep t acc kv).1.stats = acc.1.stats := by
  unfold effSetMapFoldStep
  dsimp only
  split
  · split
    · rw [show ∀ x : GameState, ({ x with timedFlags := dset x.timedFlags kv.1 _ } : GameState).stats = x.stats from fun _ => rfl]
      exact setFlagState_stats acc.1 kv.1 kv.2
    · exact setFlagState_stats acc.1 kv.1 kv.2
  · exact setFlagState_stats acc.1 kv.1 kv.2

theorem setMapFold_stats (t : Option ℤ) (m : List (String × ℤ))
    (acc : GameState × Bool) :
    ((m.foldl (effSetMapFoldStep t) acc).1).stats = acc.1.stats := by
  induction m generalizing acc with
  | nil => rfl
  | cons kv rest ih =>
      rw [List.foldl_cons, ih, effSetMapFoldStep_stats]

theorem effSetMapStep_stats (opt : OptionSpec) (t : Option ℤ)
    (s : GameState) (r : Bool) :
    (effSetMapStep opt t s r).1.stats = s.stats := by
  unfold effSetMapStep
  split
  · rfl
  · exact setMapFold_stats t _ (s, r)

theorem effIncFoldStep_stats (acc : GameState × Bool) (kv : String × ℤ) :
    (effIncFoldStep acc kv).1.stats = acc.1.stats := by
  unfold effIncFoldStep
  exact setFlagState_stats acc.1 kv.1 _

theorem incFold_stats (m : List (String × ℤ)) (acc : GameState × Bool) :
    ((m.foldl effIncFoldStep acc).1).stats = acc.1.stats := by
  induction m generalizing acc with
  | nil => rfl
  | cons kv rest ih =>
      rw [List.foldl_cons, ih, effIncFoldStep_stats]

theorem effIncStep_stats (opt : OptionSpec) (s : GameState) (r : Bool) :
    (effIncStep opt s r).1.stats = s.stats := by
  unfold effIncStep
  split
  · rfl
  · exact incFold_stats _ (s, r)

theorem effEnergyStep_stats_hp (opt : OptionSpec) (s : GameState)
    (m : List String) :
    (effEnergyStep opt s m).1.stats.hp = s.stats.hp := by
  unfold effEnergyStep
  split
  · rfl
  · dsimp only
    split <;> rfl

theorem effEnergyStep_stats_max_hp (opt : OptionSpec) (s : GameState)
    (m : List String) :
    (effEnergyStep opt s m).1.stats.max_hp = s.stats.max_hp := by
  unfold effEnergyStep
  split
  · rfl
  · dsimp only
    split <;> rfl

theorem effAlertStep_stats (opt : OptionSpec) (s : GameState)
    (m : List String) : (effAlertStep opt s m).1.stats = s.stats := by
  unfold effAlertStep
  split
  · rfl
  · split <;> rfl

theorem effStunStep_stats (opt : OptionSpec) (s : GameState) (r : Bool) :
    (effStunStep opt s r).1.stats = s.stats := by
  unfold effStunStep
  split
  · rfl
  · exact setFlagState_stats s _ _

theorem effRollCheckStep_stats (opt : OptionSpec) (s : GameState)
    (rng : Rng) (m : List String) :
    (effRollCheckStep opt s rng m).1.stats = s.stats := by
  unfold effRollCheckStep
  split
  · rfl
  · dsimp only
    split
    · split <;> rfl
    · rfl

theorem effClearFlagStep_stats (opt : OptionSpec) (s : GameState)
    (r : Bool) : (effClearFlagStep opt s r).1.stats = s.stats := by
  unfold effClearFlagStep
  split <;> rfl

theorem effTimerRearmStep_stats (opt : OptionSpec) (t : Option ℤ)
    (s : GameState) : (effTimerRearmStep opt t s).stats = s.stats := by
  unfold effTimerRearmStep
  split
  · split <;> rfl
  · rfl

theorem effFailStep_inv (opt : OptionSpec) (ft : Bool) (hpFail : ℤ)
    (s : GameState) (m : List String) (hinv : statInvariant s.stats) :
    statInvariant (effFailStep opt ft hpFail s m).1.stats := by
  unfold effFailStep
  split
  · dsimp only
    rcases hinv with ⟨h1, h2⟩
    rcases horf : orFalsy opt.effects.alertOnFail opt.effects.onFailAlert
      with _ | v
    · split
      · exact ⟨by positivity, by dsimp only; omega⟩
      · exact ⟨h1, h2⟩
    · split
      · exact ⟨by positivity, by dsimp only; omega⟩
      · exact ⟨h1, h2⟩
  · exact hinv

/-- The hp invariant survives `_apply_option_effects` as long as the
option does not route through the (unclamped) weapon-equip operation. -/
theorem applyOptionEffects_hp_invariant (d : Defaults) (opt : OptionSpec)
    (s : GameState) (rng : Rng)
    (hequip : opt.effects.equipItems = [])
    (hinv : statInvariant s.stats) :
    statInvariant (applyOptionEffects d opt s rng).1.stats := by
  have hequipStep : ∀ (x : GameState) (m : List String) (r : Bool),
      effEquipStep d opt x m r = (x, m, r) := by
    intro x m r
    unfold effEquipStep
    rw [hequip]
    rfl
  unfold applyOptionEffects
  dsimp only
  apply effFailStep_inv
  unfold statInvariant
  simp only [effTimerRearmStep_stats, effClearFlagStep_stats,
    effRollCheckStep_stats, effStunStep_stats, effAlertStep_stats,
    effEnergyStep_stats_hp, effEnergyStep_stats_max_hp, effIncStep_stats,
    effSetMapStep_stats, hequipStep, effSetFlagStep_stats,
    effGainsStep_stats]
  exact hinv

theorem takeDamage_inv (s : GameState) (amount : ℤ) (h : 0 ≤ amount)
    (hinv : statInvariant s.stats) :
    statInvariant (takeDamage s amount).stats := by
  rcases hinv with ⟨h1, h2⟩
  unfold takeDamage statInvariant
  dsimp only
  omega

theorem healPlayer_inv (s : GameState) (amount : ℤ) (h : 0 ≤ amount)
    (hinv : statInvariant s.stats) :
    statInvariant (healPlayer s amount).stats := by
  rcases hinv with ⟨h1, h2⟩
  unfold healPlayer statInvariant
  dsimp only
  omega

theorem statNameOf_eq_hp (n : String) (h : statNameOf n = some .hp) :
    n = "hp" := by
  unfold statNameOf at h
  split_ifs at h <;> simp_all

/-- `setStat` writes only the named field. -/
theorem setStat_hp_field (st : Stats) (sn : StatName) (v : ℤ) :
    (setStat st sn v).hp = if sn = .hp then v else st.hp := by
  cases sn <;> simp [setStat]

theorem setStat_max_hp_field (st : Stats) (sn : StatName) (v : ℤ) :
    (setStat st sn v).max_hp = if sn = .max_hp then v else st.max_hp := by
  cases sn <;> simp [setStat]

theorem applyItemEffectsStep_inv (acc : GameState) (kv : String × ℤ)
    (hkv : statNameOf kv.1 ≠ some .max_hp)
    (hinv : statInvariant acc.stats) :
    statInvariant (applyItemEffectsStep acc kv).stats := by
  rcases hinv with ⟨h1, h2⟩
  unfold applyItemEffectsStep
  cases hname : statNameOf kv.1 with
  | none => exact ⟨h1, h2⟩
  | some sn =>
      dsimp only
      have hsnmax : sn ≠ .max_hp := by
        intro he
        exact hkv (he ▸ hname)
      by_cases hhp : kv.1 = "hp"
      · have hsn : sn = .hp := by
          rw [hhp] at hname
          have hstat : statNameOf "hp" = some StatName.hp := rfl
          rw [hstat] at hname
          injection hname with hname
          exact hname.symm
        subst hsn
        simp only [if_pos hhp, setStat, getStat]
        constructor
        · dsimp only
          omega
        · dsimp only
          omega
      · have hsnhp : sn ≠ .hp := by
          intro he
          subst he
          exact hhp (statNameOf_eq_hp kv.1 hname)
        constructor
        · show 0 ≤ (setStat acc.stats sn _).hp
          rw [setStat_hp_field]
          simp only [if_neg hsnhp]
          exact h1
        · show (setStat acc.stats sn _).hp ≤ (setStat acc.stats sn _).max_hp
          rw [setStat_hp_field, setStat_max_hp_field]
          simp only [if_neg hsnhp, if_neg hsnmax]
          exact h2

theorem itemEffectsFold_inv (l : List (String × ℤ)) :
    ∀ (acc : GameState),
      (∀ kv ∈ l, statNameOf kv.1 ≠ some .max_hp) →
      statInvariant acc.stats →
      statInvariant (l.foldl applyItemEffectsStep acc).stats := by
  induction l with
  | nil =>
      intro acc _ hinv
      exact hinv
  | cons kv rest ih =>
      intro acc hl hinv
      rw [List.foldl_cons]
      exact ih _ (fun kv' hkv' => hl kv' (List.mem_cons_of_mem _ hkv'))
        (applyItemEffectsStep_inv acc kv (hl kv (List.mem_cons_self _ _)) hinv)

theorem consumeOneFromInventory_stats (s : GameState) (itemId : String) :
    (consumeOneFromInventory s itemId).stats = s.stats := by
  unfold consumeOneFromInventory
  dsimp only
  split <;> rfl

/-- The hp invariant survives `_use_item` for items that are not weapons
(those delegate to the unclamped equip path) and whose effects leave
`max_hp` alone. -/
theorem useItem_inv (d : Defaults) (s : GameState) (itemId : String)
    (hcat : (itemDefinition d itemId).category ≠ "weapon")
    (hwt : ¬optStrTruthy (itemDefinition d itemId).weaponType)
    (heff : ∀ kv ∈ (itemDefinition d itemId).effects,
      statNameOf kv.1 ≠ some .max_hp)
    (hinv : statInvariant s.stats) :
    statInvariant (useItem d s itemId).1.stats := by
  unfold useItem
  split
  · exact hinv
  · dsimp only
    rw [if_neg (by simp [hcat, hwt])]
    split
    · exact hinv
    · dsimp only
      split
      · rw [consumeOneFromInventory_stats]
        exact itemEffectsFold_inv _ _ heff hinv
      · exact itemEffectsFold_inv _ _ heff hinv

/-- The registry of the C1 counterexample: a cursed melee weapon whose
effects map raises hp. -/
def bloodAmuletDef : ItemDef :=
  { name := "Blood Amulet", category := "weapon",
    weaponType := some "melee", effects := [("hp", 5)] }

def bloodAmuletDefaults : Defaults :=
  { ITEM_DEFINITIONS := [("blood_amulet", bloodAmuletDef)] }

/-- C1 fails as stated: equipping a weapon whose effects map touches hp
applies the delta without any clamping, driving hp above max_hp from a
state that satisfied the invariant. -/
theorem hp_invariant_counterexample :
    statInvariant (initialState STARTING_STATS).stats ∧
      ¬statInvariant
        (equipWeapon bloodAmuletDefaults (initialState STARTING_STATS)
          "blood_amulet"
          (itemDefinition bloodAmuletDefaults "blood_amulet")).1.stats := by
  constructor
  · constructor <;> decide
  · decide

/-- C1 (amended): the invariant `0 ≤ hp ≤ max_hp` is preserved by combat
damage and healing with non-negative amounts, by effects application as
long as the option does not equip weapons, and by item use of non-weapon
items whose effects leave `max_hp` alone; weapon equip/unequip applies
raw stat deltas with no clamping and can violate the invariant. -/
theorem hp_invariant_preserved (d : Defaults) (opt : OptionSpec)
    (s : GameState) (rng : Rng) (amount : ℤ) (itemId : String)
    (hinv : statInvariant s.stats) (hamt : 0 ≤ amount)
    (hequip : opt.effects.equipItems = [])
    (hcat : (itemDefinition d itemId).category ≠ "weapon")
    (hwt : ¬optStrTruthy (itemDefinition d itemId).weaponType)
    (heff : ∀ kv ∈ (itemDefinition d itemId).effects,
      statNameOf kv.1 ≠ some .max_hp) :
    statInvariant (takeDamage s amount).stats ∧
      statInvariant (healPlayer s amount).stats ∧
      statInvariant (useItem d s itemId).1.stats ∧
      statInvariant (applyOptionEffects d opt s rng).1.stats :=
  ⟨takeDamage_inv s amount hamt hinv,
   healPlayer_inv s amount hamt hinv,
   useItem_inv d s itemId hcat hwt heff hinv,
   applyOptionEffects_hp_invariant d opt s rng hequip hinv⟩

/-- A healing potion used in the C1 witness. -/
def healingPotionDef : ItemDef :=
  { name := "Healing Draught", category := "consumable",
    weaponType := none, effects := [("hp", 4)] }

def healingPotionDefaults : Defaults :=
  { ITEM_DEFINITIONS := [("healing_potion", healingPotionDef)] }

/-- Witness for the amended C1, at a state holding one healing potion. -/
theorem hp_invariant_preserved_witness :
    (statInvariant ({ initialState STARTING_STATS with
        inventory := [("healing_potion", 1)] } : GameState).stats ∧
      (0 : ℤ) ≤ 3 ∧
      (({} : EffectsMap).equipItems = []) ∧
      (itemDefinition healingPotionDefaults "healing_potion").category ≠
        "weapon" ∧
      ¬optStrTruthy
        (itemDefinition healingPotionDefaults "healing_potion").weaponType ∧
      (∀ kv ∈ (itemDefinition healingPotionDefaults "healing_potion").effects,
        statNameOf kv.1 ≠ some .max_hp)) ∧
      (statInvariant (takeDamage { initialState STARTING_STATS with
          inventory := [("healing_potion", 1)] } 3).stats ∧
        statInvariant (healPlayer { initialState STARTING_STATS with
          inventory := [("healing_potion", 1)] } 3).stats ∧
        statInvariant (useItem healingPotionDefaults
          { initialState STARTING_STATS with
            inventory := [("healing_potion", 1)] } "healing_potion").1.stats ∧
        statInvariant (applyOptionEffects healingPotionDefaults
          { label := "wait" }
          { initialState STARTING_STATS with
            inventory := [("healing_potion", 1)] }
          { floats := fun _ => 0, ints := fun _ => 0 }).1.stats) :=
  ⟨⟨⟨by decide, by decide⟩, by decide, by decide, by decide, by decide,
     by decide⟩,
   hp_invariant_preserved healingPotionDefaults { label := "wait" }
     { initialState STARTING_STATS with
       inventory := [("healing_potion", 1)] }
     { floats := fun _ => 0, ints := fun _ => 0 } 3 "healing_potion"
     ⟨by decide, by decide⟩ (by decide) (by decide) (by decide) (by decide)
     (by decide)⟩

/-- `WEAPON_DEFINITIONS` of `game/weapons.py` (the `range` key names no
`Stats` attribute and is skipped by the `hasattr` guard). -/
def trainingSwordDef : ItemDef :=
  { name := "Training Blade", category := "weapon",
    weaponType := some "melee", effects := [("attack", 10)] }

def woodenBowDef : ItemDef :=
  { name := "Wooden Bow", category := "weapon",
    weaponType := some "ranged", effects := [("attack", 8), ("range", 15)] }

def WEAPON_DEFINITIONS : List (String × ItemDef) :=
  [("training_sword", trainingSwordDef), ("wooden_bow", woodenBowDef)]

def woodenBowDefaults : Defaults :=
  { ITEM_DEFINITIONS := WEAPON_DEFINITIONS }

/-- Witness for the amended C4: equipping the wooden bow into the empty
ranged slot and unequipping it restores the starting stats. -/
theorem equip_unequip_restores_stats_witness :
    (equipGet (initialState STARTING_STATS).equipment
        (weaponSlot (itemDefinition woodenBowDefaults "wooden_bow")) =
          none ∧
      ¬("wooden_bow".isEmpty = true)) ∧
      (unequipWeapon woodenBowDefaults
          (equipWeapon woodenBowDefaults (initialState STARTING_STATS)
            "wooden_bow"
            (itemDefinition woodenBowDefaults "wooden_bow")).1
          (weaponSlot (itemDefinition woodenBowDefaults "wooden_bow"))).stats =
        (initialState STARTING_STATS).stats :=
  ⟨⟨by decide, by decide⟩,
   equip_unequip_restores_stats woodenBowDefaults
     (initialState STARTING_STATS) "wooden_bow" (by decide) (by decide)⟩

/-! ### Attack damage formula (claim C3) -/

/-- The enemy with negative defence used by the C3 counterexample. -/
def phantomEnemy : Enemy :=
  { id := "phantom", name := "Phantom", hp := 5, attack := 2,
    defence := -1, loot := [] }

def phantomBattle : BattleSpec :=
  { id := "phantom_duel", title := "Phantom Duel", enemy := phantomEnemy,
    actions := [] }

def phantomBattleState : GameState :=
  { initialState { STARTING_STATS with attack := 0 } with
    currentBattle := some { spec := phantomBattle, optionTo := none,
                            enemyHp := 5, repeatKey := none } }

def zeroDrawRng : Rng := { floats := fun _ => 0, ints := fun _ => 0 }

def noCritDefaults : Defaults :=
  { DAMAGE_VARIANCE := 0, CRIT_CHANCE := 0 }

/-- C3 fails as stated for a negative enemy defence combined with a
negative attack-plus-bonus-plus-roll total: the code clamps at zero both
before and after subtracting the defence, so with attack 0, bonus -1,
roll 0 and defence -1 it deals 1 damage where the claimed formula
`max(0, attack + bonus + roll - defence)` gives 0. -/
theorem attack_damage_formula_counterexample :
    (calculatePlayerDamage noCritDefaults phantomBattleState (-1) 0
        zeroDrawRng).1 = 1 ∧
      max 0 (phantomBattleState.stats.attack + (-1) + 0 - (-1) : ℤ) = 0 := by
  constructor
  · decide
  · decide

/-- C3 (amended): with the drawn variance roll named explicitly, and
provided `attack + bonus + roll` is non-negative or the enemy defence is
non-negative (the double zero-clamp in the code only diverges from the
single-clamp formula when both are negative), the damage before the crit
check is `max 0 (attack + bonus + roll - defence)`; when the crit draw
triggers, the final damage is that value times the configured multiplier
truncated to an integer, and otherwise it is returned unchanged. -/
theorem attack_damage_formula (d : Defaults) (s : GameState)
    (bonus variance : ℤ) (rng : Rng) (cb : BattleEncounter)
    (hcb : s.currentBattle = some cb)
    (h : 0 ≤ s.stats.attack + bonus +
        ((nextInt rng (max 0 (variance + d.DAMAGE_VARIANCE)).toNat).1 : ℤ) ∨
      0 ≤ cb.spec.enemy.defence) :
    (¬(d.CRIT_CHANCE > 0 ∧
        (nextFloat
          (nextInt rng (max 0 (variance + d.DAMAGE_VARIANCE)).toNat).2).1 <
          d.CRIT_CHANCE) →
      (calculatePlayerDamage d s bonus variance rng).1 =
        max 0 (s.stats.attack + bonus +
          ((nextInt rng (max 0 (variance + d.DAMAGE_VARIANCE)).toNat).1 : ℤ) -
          cb.spec.enemy.defence)) ∧
    (d.CRIT_CHANCE > 0 ∧
        (nextFloat
          (nextInt rng (max 0 (variance + d.DAMAGE_VARIANCE)).toNat).2).1 <
          d.CRIT_CHANCE →
      (calculatePlayerDamage d s bonus variance rng).1 =
        truncToInt ((max 0 (s.stats.attack + bonus +
          ((nextInt rng (max 0 (variance + d.DAMAGE_VARIANCE)).toNat).1 : ℤ) -
          cb.spec.enemy.defence) : ℤ) * d.CRIT_MULTIPLIER)) := by
  have key : max 0 (max 0 (s.stats.attack + bonus +
      ((nextInt rng (max 0 (variance + d.DAMAGE_VARIANCE)).toNat).1 : ℤ)) -
      cb.spec.enemy.defence) =
      max 0 (s.stats.attack + bonus +
        ((nextInt rng (max 0 (variance + d.DAMAGE_VARIANCE)).toNat).1 : ℤ) -
        cb.spec.enemy.defence) := by
    omega
  constructor
  · intro hnocrit
    unfold calculatePlayerDamage
    simp only [hcb]
    by_cases hcc : d.CRIT_CHANCE > 0
    · rw [if_pos hcc]
      have hdraw : ¬(nextFloat
          (nextInt rng (max 0 (variance + d.DAMAGE_VARIANCE)).toNat).2).1 <
          d.CRIT_CHANCE := fun hd => hnocrit ⟨hcc, hd⟩
      rw [if_neg hdraw]
      exact key
    · rw [if_neg hcc]
      exact key
  · rintro ⟨hcc, hdraw⟩
    unfold calculatePlayerDamage
    simp only [hcb]
    rw [if_pos hcc, if_pos hdraw, key]

/-- The configuration of the C3 witness: positive crit chance, so both
the crit and the no-crit branch of the amended claim can be exercised. -/
def critDefaults : Defaults :=
  { DAMAGE_VARIANCE := 2, CRIT_CHANCE := 1 / 2, CRIT_MULTIPLIER := 3 / 2 }

/-- Witness for the amended C3 in the phantom duel at a zero draw (the
crit triggers). -/
theorem attack_damage_formula_witness :
    (phantomBattleState.currentBattle =
      some { spec := phantomBattle, optionTo := none, enemyHp := 5,
             repeatKey := none } ∧
      (0 ≤ phantomBattleState.stats.attack + 1 +
          ((nextInt zeroDrawRng
            (max 0 (1 + critDefaults.DAMAGE_VARIANCE)).toNat).1 : ℤ) ∨
        0 ≤ phantomBattle.enemy.defence)) ∧
      (¬(critDefaults.CRIT_CHANCE > 0 ∧
          (nextFloat (nextInt zeroDrawRng
            (max 0 (1 + critDefaults.DAMAGE_VARIANCE)).toNat).2).1 <
            critDefaults.CRIT_CHANCE) →
        (calculatePlayerDamage critDefaults phantomBattleState 1 1
          zeroDrawRng).1 =
          max 0 (phantomBattleState.stats.attack + 1 +
            ((nextInt zeroDrawRng
              (max 0 (1 + critDefaults.DAMAGE_VARIANCE)).toNat).1 : ℤ) -
            phantomBattle.enemy.defence)) ∧
      ((critDefaults.CRIT_CHANCE > 0 ∧
          (nextFloat (nextInt zeroDrawRng
            (max 0 (1 + critDefaults.DAMAGE_VARIANCE)).toNat).2).1 <
            critDefaults.CRIT_CHANCE) →
        (calculatePlayerDamage critDefaults phantomBattleState 1 1
          zeroDrawRng).1 =
          truncToInt ((max 0 (phantomBattleState.stats.attack + 1 +
            ((nextInt zeroDrawRng
              (max 0 (1 + critDefaults.DAMAGE_VARIANCE)).toNat).1 : ℤ) -
            phantomBattle.enemy.defence) : ℤ) *
            critDefaults.CRIT_MULTIPLIER)) :=
  ⟨⟨by decide, by decide⟩,
   attack_damage_formula critDefaults phantomBattleState 1 1 zeroDrawRng
     { spec := phantomBattle, optionTo := none, enemyHp := 5,
       repeatKey := none }
     (by decide) (by decide)⟩

/-! ### Cast resolution (claims C6 and C10) -/

theorem consumeInventory_stats (s : GameState) (itemId : String)
    (amount : ℤ) : (consumeInventory s itemId amount).stats = s.stats := by
  unfold consumeInventory
  dsimp only
  split
  · rfl
  · split <;> rfl

theorem consumeInventory_currentBattle (s : GameState) (itemId : String)
    (amount : ℤ) :
    (consumeInventory s itemId amount).currentBattle = s.currentBattle := by
  unfold consumeInventory
  dsimp only
  split
  · rfl
  · split <;> rfl

/-- An available action with an ammo item has the ammo in stock. -/
theorem battleActionAvailable_ammo (d : Defaults) (s : GameState)
    (a : BattleAction) (havail : (battleActionAvailable d s a).1 = true)
    (hai : optStrTruthy a.ammoItem = true) :
    ¬(dgetD s.inventory (a.ammoItem.getD "") 0 < max 0 a.ammoCost) := by
  unfold battleActionAvailable at havail
  dsimp only at havail
  split at havail
  · simp at havail
  · rw [if_pos hai] at havail
    split at havail
    · simp at havail
    · assumption

/-- The `cast` dispatch aborts before touching anything when mana is
short. -/
theorem resolveKind_cast_abort (d : Defaults) (a : BattleAction)
    (s : GameState) (rng : Rng) (hkind : a.kind = "cast")
    (hmana : s.stats.mana < a.mana_cost) :
    resolveKind d a s rng = (s, rng, true) := by
  unfold resolveKind
  rw [hkind]
  rw [if_pos hmana]
  rw [if_neg (by decide : ¬("cast" : String) = "attack")]
  rw [if_neg (by decide : ¬("cast" : String) = "skill_check")]
  rfl

/-- After the ammo bookkeeping, a `cast` whose hit draw passes (or is
skipped) and whose mana is short leaves the state untouched. -/
theorem resolveAfterAmmo_cast_abort (d : Defaults) (a : BattleAction)
    (battle : BattleSpec) (s : GameState) (rng : Rng)
    (hkind : a.kind = "cast")
    (hhit : clamp01 a.hitChance < 1 →
      ¬((nextFloat rng).1 > clamp01 a.hitChance))
    (hmana : s.stats.mana < a.mana_cost) :
    (resolveAfterAmmo d a battle s rng).1 = s := by
  unfold resolveAfterAmmo
  rw [if_pos (Or.inr hkind : a.kind = "attack" ∨ a.kind = "cast")]
  dsimp only
  by_cases hch : clamp01 a.hitChance < 1
  · rw [if_pos hch, if_neg (hhit hch),
      resolveKind_cast_abort d a s _ hkind hmana]
    rfl
  · rw [if_neg hch, resolveKind_cast_abort d a s rng hkind hmana]
    rfl

/-- C6: an available `cast` action that passes (or skips) its hit-chance
draw but lacks the mana aborts the turn: mana is not deducted, the
player takes no counter-attack damage, and the battle (in particular the
enemy hp) is left exactly as it was. -/
theorem cast_insufficient_mana_aborts_turn (d : Defaults)
    (a : BattleAction) (s : GameState) (rng : Rng) (cb : BattleEncounter)
    (hcb : s.currentBattle = some cb)
    (hkind : a.kind = "cast")
    (havail : (battleActionAvailable d s a).1 = true)
    (hhit : clamp01 a.hitChance < 1 →
      ¬((nextFloat rng).1 > clamp01 a.hitChance))
    (hmana : s.stats.mana < a.mana_cost) :
    (resolveBattleAction d a s rng).1.stats.mana = s.stats.mana ∧
      (resolveBattleAction d a s rng).1.stats.hp = s.stats.hp ∧
      (resolveBattleAction d a s rng).1.currentBattle = s.currentBattle := by
  unfold resolveBattleAction
  rw [hcb]
  dsimp only
  rw [havail]
  rw [if_neg (by decide : ¬(!true) = true)]
  by_cases hammo : optStrTruthy a.ammoItem ∧ max 0 a.ammoCost ≠ 0
  · rw [if_pos hammo]
    have hstock := battleActionAvailable_ammo d s a havail
      (by simpa using hammo.1)
    rw [if_neg hstock]
    have hmana2 : (consumeInventory s (a.ammoItem.getD "")
        (max 0 a.ammoCost)).stats.mana < a.mana_cost := by
      rw [consumeInventory_stats]
      exact hmana
    rw [resolveAfterAmmo_cast_abort d a cb.spec _ rng hkind hhit hmana2]
    rw [consumeInventory_stats, consumeInventory_currentBattle]
    exact ⟨rfl, rfl, hcb⟩
  · rw [if_neg hammo]
    rw [resolveAfterAmmo_cast_abort d a cb.spec s rng hkind hhit hmana]
    exact ⟨rfl, rfl, hcb⟩

theorem dget?_eq_none_of_not_mem {β : Type} (m : List (String × β))
    (k : String) (h : k ∉ m.map Prod.fst) : dget? m k = none := by
  induction m with
  | nil => rfl
  | cons kv rest ih =>
      simp only [List.map_cons, List.mem_cons, not_or] at h
      rw [show kv = (kv.1, kv.2) from rfl, dget?_cons,
        if_neg (fun he => h.1 he.symm), ih h.2]

theorem dget?_dpop_self {β : Type} (m : List (String × β)) (k : String)
    (h : (m.map Prod.fst).Nodup) : dget? (dpop m k) k = none := by
  induction m with
  | nil => rfl
  | cons kv rest ih =>
      simp only [List.map_cons, List.nodup_cons] at h
      unfold dpop
      by_cases hk : kv.1 = k
      · rw [if_pos hk]
        exact dget?_eq_none_of_not_mem rest k (hk ▸ h.1)
      · rw [if_neg hk, show kv = (kv.1, kv.2) from rfl, dget?_cons,
          if_neg hk]
        exact ih h.2

/-- Consuming in-stock ammo lowers the stored count by exactly the cost
(the entry is dropped when it reaches zero). -/
theorem consumeInventory_dgetD (s : GameState) (itemId : String)
    (amount : ℤ) (hnodup : (s.inventory.map Prod.fst).Nodup)
    (hstock : amount ≤ dgetD s.inventory itemId 0) :
    dgetD (consumeInventory s itemId amount).inventory itemId 0 =
      dgetD s.inventory itemId 0 - max 0 amount := by
  unfold consumeInventory
  dsimp only
  by_cases hle : amount ≤ 0
  · rw [if_pos hle]
    simp only [dgetD] at hstock ⊢
    omega
  · rw [if_neg hle]
    by_cases hz : dgetD s.inventory itemId 0 - amount ≤ 0
    · rw [if_pos hz]
      simp only [dgetD] at hstock hz ⊢
      rw [dget?_dpop_self s.inventory itemId hnodup]
      simp only [Option.getD_none]
      omega
    · rw [if_neg hz]
      simp only [dgetD] at hstock hz ⊢
      rw [dget?_dset_self]
      simp only [Option.getD_some]
      omega

/-- C10: an available `cast` action with an ammo item consumes the ammo
before the mana check — with the hit draw passing and mana short, the
turn aborts with mana and enemy state untouched, yet the ammo count has
already dropped by the ammo cost. -/
theorem cast_ammo_spent_despite_mana_abort (d : Defaults)
    (a : BattleAction) (s : GameState) (rng : Rng) (cb : BattleEncounter)
    (ai : String)
    (hcb : s.currentBattle = some cb)
    (hkind : a.kind = "cast")
    (hai : a.ammoItem = some ai)
    (hne : ¬ai.isEmpty)
    (hnodup : (s.inventory.map Prod.fst).Nodup)
    (havail : (battleActionAvailable d s a).1 = true)
    (hhit : clamp01 a.hitChance < 1 →
      ¬((nextFloat rng).1 > clamp01 a.hitChance))
    (hmana : s.stats.mana < a.mana_cost) :
    dgetD (resolveBattleAction d a s rng).1.inventory ai 0 =
      dgetD s.inventory ai 0 - max 0 a.ammoCost ∧
      (resolveBattleAction d a s rng).1.stats.mana = s.stats.mana ∧
      (resolveBattleAction d a s rng).1.currentBattle = s.currentBattle := by
  have htruthy : optStrTruthy a.ammoItem = true := by
    rw [hai]
    simpa [optStrTruthy] using hne
  have hgetai : a.ammoItem.getD "" = ai := by rw [hai]; rfl
  have hstock := battleActionAvailable_ammo d s a havail htruthy
  unfold resolveBattleAction
  rw [hcb]
  dsimp only
  rw [havail]
  rw [if_neg (by decide : ¬(!true) = true)]
  by_cases hzero : max 0 a.ammoCost = 0
  · rw [if_neg (by simp [hzero])]
    rw [resolveAfterAmmo_cast_abort d a cb.spec s rng hkind hhit hmana]
    refine ⟨by omega, rfl, hcb⟩
  · rw [if_pos ⟨htruthy, hzero⟩]
    rw [if_neg hstock]
    have hmana2 : (consumeInventory s (a.ammoItem.getD "")
        (max 0 a.ammoCost)).stats.mana < a.mana_cost := by
      rw [consumeInventory_stats]
      exact hmana
    rw [resolveAfterAmmo_cast_abort d a cb.spec _ rng hkind hhit hmana2]
    rw [consumeInventory_stats, consumeInventory_currentBattle, hgetai]
    refine ⟨?_, rfl, hcb⟩
    rw [hgetai] at hstock
    have := consumeInventory_dgetD s ai (max 0 a.ammoCost) hnodup (by omega)
    rw [this]
    omega

/-- The goblin encounter shipped in `battle_loops/goblin_trial.py`. -/
def goblinEnemy : Enemy :=
  { id := "hallway_goblin", name := "Goblin Skulker", hp := 10,
    attack := 4, defence := 1, loot := [] }

def goblinBattle : BattleSpec :=
  { id := "goblin_trial", title := "Goblin Ambush", enemy := goblinEnemy,
    actions := [{ kind := "skill_check", label := "Hold your ground",
                  stat := some "attack", gte := some 4,
                  success_damage := 12, fail_damage := 999 }],
    victoryTo := some "goblin_victory", defeatTo := some "goblin_defeat" }

/-- A cast action costing more mana than the starting pool holds. -/
def fireboltAction : BattleAction :=
  { kind := "cast", label := "Firebolt", bonus := 3, mana_cost := 99 }

def goblinBattleState : GameState :=
  { initialState STARTING_STATS with
    currentBattle := some { spec := goblinBattle, optionTo := none,
                            enemyHp := 10, repeatKey := none } }

def castWitnessRng : Rng := { floats := fun _ => 0, ints := fun _ => 0 }

/-- Witness for C6: the firebolt aborts against the goblin at 5 mana. -/
theorem cast_insufficient_mana_aborts_turn_witness :
    (goblinBattleState.currentBattle =
        some { spec := goblinBattle, optionTo := none, enemyHp := 10,
               repeatKey := none } ∧
      fireboltAction.kind = "cast" ∧
      (battleActionAvailable {} goblinBattleState fireboltAction).1 = true ∧
      (clamp01 fireboltAction.hitChance < 1 →
        ¬((nextFloat castWitnessRng).1 > clamp01 fireboltAction.hitChance)) ∧
      goblinBattleState.stats.mana < fireboltAction.mana_cost) ∧
      ((resolveBattleAction {} fireboltAction goblinBattleState
          castWitnessRng).1.stats.mana = goblinBattleState.stats.mana ∧
        (resolveBattleAction {} fireboltAction goblinBattleState
          castWitnessRng).1.stats.hp = goblinBattleState.stats.hp ∧
        (resolveBattleAction {} fireboltAction goblinBattleState
          castWitnessRng).1.currentBattle =
          goblinBattleState.currentBattle) :=
  ⟨⟨by decide, by decide, by decide, by decide, by decide⟩,
   cast_insufficient_mana_aborts_turn {} fireboltAction goblinBattleState
     castWitnessRng
     { spec := goblinBattle, optionTo := none, enemyHp := 10,
       repeatKey := none }
     (by decide) (by decide) (by decide) (by decide) (by decide)⟩

/-- An arrow-fed cast action for the C10 witness. -/
def arcaneArrowAction : BattleAction :=
  { kind := "cast", label := "Arcane Arrow", bonus := 2, mana_cost := 40,
    ammoItem := some "arrow", ammoCost := 2 }

def arrowBattleState : GameState :=
  { initialState STARTING_STATS with
    inventory := [("arrow", 5)],
    currentBattle := some { spec := goblinBattle, optionTo := none,
                            enemyHp := 10, repeatKey := none } }

def arrowWitnessRng : Rng := { floats := fun _ => 0, ints := fun _ => 0 }

/-- Witness for C10: two arrows are gone although the cast aborted. -/
theorem cast_ammo_spent_despite_mana_abort_witness :
    (arrowBattleState.currentBattle =
        some { spec := goblinBattle, optionTo := none, enemyHp := 10,
               repeatKey := none } ∧
      arcaneArrowAction.kind = "cast" ∧
      arcaneArrowAction.ammoItem = some "arrow" ∧
      ¬("arrow".isEmpty) ∧
      ((arrowBattleState.inventory.map Prod.fst).Nodup) ∧
      (battleActionAvailable {} arrowBattleState arcaneArrowAction).1 =
        true ∧
      (clamp01 arcaneArrowAction.hitChance < 1 →
        ¬((nextFloat arrowWitnessRng).1 >
          clamp01 arcaneArrowAction.hitChance)) ∧
      arrowBattleState.stats.mana < arcaneArrowAction.mana_cost) ∧
      (dgetD (resolveBattleAction {} arcaneArrowAction arrowBattleState
          arrowWitnessRng).1.inventory "arrow" 0 =
        dgetD arrowBattleState.inventory "arrow" 0 -
          max 0 arcaneArrowAction.ammoCost ∧
        (resolveBattleAction {} arcaneArrowAction arrowBattleState
          arrowWitnessRng).1.stats.mana = arrowBattleState.stats.mana ∧
        (resolveBattleAction {} arcaneArrowAction arrowBattleState
          arrowWitnessRng).1.currentBattle =
          arrowBattleState.currentBattle) :=
  ⟨⟨by decide, by decide, by decide, by decide, by decide, by decide,
     by decide, by decide⟩,
   cast_ammo_spent_despite_mana_abort {} arcaneArrowAction
     arrowBattleState arrowWitnessRng
     { spec := goblinBattle, optionTo := none, enemyHp := 10,
       repeatKey := none }
     "arrow" (by decide) (by decide) (by decide) (by decide) (by decide)
     (by decide) (by decide) (by decide)⟩

/-! ### Timed-flag expiry across room transitions (claim C7) -/

theorem setFlagState_timedFlags (s : GameState) (f : String) (v : ℤ) :
    (setFlagState s f v).1.timedFlags = s.timedFlags := by
  unfold setFlagState
  split <;> rfl

theorem setFlagState_flags_self (s : GameState) (f : String) (v : ℤ) :
    dget? (setFlagState s f v).1.flags f = some v := by
  unfold setFlagState
  split
  · assumption
  · exact dget?_dset_self s.flags f v

theorem dset_keys_mem {β : Type} (m : List (String × β)) (k x : String)
    (v : β) (h : x ∈ (dset m k v).map Prod.fst) :
    x ∈ m.map Prod.fst ∨ x = k := by
  induction m with
  | nil =>
      simp only [dset, List.map_cons, List.map_nil,
        List.mem_singleton] at h
      exact Or.inr h
  | cons kv rest ih =>
      by_cases hk : kv.1 = k
      · simp only [dset, if_pos hk, List.map_cons, List.mem_cons] at h
        rcases h with h | h
        · exact Or.inr h
        · exact Or.inl (List.mem_cons_of_mem _ h)
      · simp only [dset, if_neg hk, List.map_cons, List.mem_cons] at h
        rcases h with h | h
        · exact Or.inl (by rw [h]; exact List.mem_cons_self _ _)
        · rcases ih h with h' | h'
          · exact Or.inl (List.mem_cons_of_mem _ h')
          · exact Or.inr h'

theorem dset_keys_nodup {β : Type} (m : List (String × β)) (k : String)
    (v : β) (h : (m.map Prod.fst).Nodup) :
    ((dset m k v).map Prod.fst).Nodup := by
  induction m with
  | nil => simp [dset]
  | cons kv rest ih =>
      simp only [List.map_cons, List.nodup_cons] at h
      by_cases hk : kv.1 = k
      · simp only [dset, if_pos hk, List.map_cons, List.nodup_cons]
        exact ⟨hk ▸ h.1, h.2⟩
      · simp only [dset, if_neg hk, List.map_cons, List.nodup_cons]
        refine ⟨fun hmem => ?_, ih h.2⟩
        rcases dset_keys_mem rest k kv.1 v hmem with h' | h'
        · exact h.1 h'
        · exact hk h'

theorem setFlagState_flags_nodup (s : GameState) (f : String) (v : ℤ)
    (h : (s.flags.map Prod.fst).Nodup) :
    ((setFlagState s f v).1.flags.map Prod.fst).Nodup := by
  unfold setFlagState
  split
  · exact h
  · exact dset_keys_nodup s.flags f v h

theorem regenMana_flags (d : Defaults) (s : GameState) :
    (regenMana d s).flags = s.flags := by
  unfold regenMana
  dsimp only
  split
  · rfl
  · split <;> rfl

theorem regenMana_timedFlags (d : Defaults) (s : GameState) :
    (regenMana d s).timedFlags = s.timedFlags := by
  unfold regenMana
  dsimp only
  split
  · rfl
  · split <;> rfl

/-- The option of the C7 scenario: `effects = {set: {F: v},
timer_rooms: 2}` and nothing else. -/
def timedFlagOption (F : String) (v : ℤ) : OptionSpec :=
  { label := "linger",
    effects := { setMap := some [(F, v)], timerRooms := some 2 } }

/-- Applying the C7 option sets the flag and arms the two-room timer. -/
theorem applyOptionEffects_timedFlagOption (d : Defaults) (s : GameState)
    (rng : Rng) (F : String) (v : ℤ) :
    (applyOptionEffects d (timedFlagOption F v) s rng).1 =
      { (setFlagState s F v).1 with
        timedFlags := dset (setFlagState s F v).1.timedFlags F 2 } := by
  have hgains : effGainsStep (timedFlagOption F v) s rng =
      (s, rng, [], false) := by
    unfold effGainsStep timedFlagOption rollLootTable
    simp
  have hsetmap : ∀ (x : GameState) (r : Bool),
      effSetMapStep (timedFlagOption F v) (some 2) x r =
        ({ (setFlagState x F v).1 with
           timedFlags := dset (setFlagState x F v).1.timedFlags F 2 },
         r || (setFlagState x F v).2) := by
    intro x r
    unfold effSetMapStep timedFlagOption
    dsimp only
    unfold effSetMapFoldStep
    norm_num
  unfold applyOptionEffects
  dsimp only
  rw [hgains]
  dsimp only
  rw [show effSetFlagStep (timedFlagOption F v) s false = (s, false) from rfl]
  dsimp only
  rw [show effEquipStep d (timedFlagOption F v) s [] false = (s, [], false)
    from rfl]
  dsimp only
  rw [show (timedFlagOption F v).effects.timerRooms.map (max 0) = some 2
    from rfl]
  rw [hsetmap]
  dsimp only
  rfl

/-- C7: the flag set through `effects.set` with `timer_rooms = 2` becomes
a timed flag with counter 2; the first non-initial `go_to` decrements it
to 1 with no expiry message, and the second removes the flag, removes the
timed entry, and emits the fades message. -/
theorem timed_flag_expires_on_second_transition (d : Defaults)
    (s : GameState) (rng : Rng) (F : String) (v : ℤ)
    (rooms : List String) (r1 r2 : String)
    (htimed : s.timedFlags = [])
    (hnodup : (s.flags.map Prod.fst).Nodup)
    (hr1 : r1 ∈ rooms) (hr2 : r2 ∈ rooms) :
    ((applyOptionEffects d (timedFlagOption F v) s rng).1.timedFlags =
        [(F, 2)] ∧
      dget? (applyOptionEffects d (timedFlagOption F v) s rng).1.flags F =
        some v) ∧
    ((goTo d rooms r1 false
        (applyOptionEffects d (timedFlagOption F v) s rng).1).1.timedFlags =
        [(F, 1)] ∧
      dget? (goTo d rooms r1 false
        (applyOptionEffects d (timedFlagOption F v) s rng).1).1.flags F =
        some v ∧
      (goTo d rooms r1 false
        (applyOptionEffects d (timedFlagOption F v) s rng).1).2 = []) ∧
    ((goTo d rooms r2 false
        (goTo d rooms r1 false
          (applyOptionEffects d (timedFlagOption F v) s rng).1).1).1.timedFlags =
        [] ∧
      dget? (goTo d rooms r2 false
        (goTo d rooms r1 false
          (applyOptionEffects d (timedFlagOption F v) s rng).1).1).1.flags F =
        none ∧
      (goTo d rooms r2 false
        (goTo d rooms r1 false
          (applyOptionEffects d (timedFlagOption F v) s rng).1).1).2 =
        [humanFlagName F ++ " fades."]) := by
  rw [applyOptionEffects_timedFlagOption d s rng F v]
  set sf := (setFlagState s F v).1 with hsf
  have hflags_nd : (sf.flags.map Prod.fst).Nodup :=
    setFlagState_flags_nodup s F v hnodup
  have hflags_get : dget? sf.flags F = some v := setFlagState_flags_self s F v
  have htimed1 : sf.timedFlags = [] := by
    rw [hsf, setFlagState_timedFlags, htimed]
  set s1 : GameState := { sf with timedFlags := dset sf.timedFlags F 2 }
    with hs1
  have hs1_timed : s1.timedFlags = [(F, 2)] := by
    rw [hs1]
    dsimp only
    rw [htimed1]
    rfl
  have hs1_flags : s1.flags = sf.flags := by rw [hs1]
  refine ⟨⟨hs1_timed, by rw [hs1_flags]; exact hflags_get⟩, ?_⟩
  -- first transition
  have htick1 : tickTimedFlags s1 =
      ({ s1 with timedFlags := [(F, 1)], flags := s1.flags }, []) := by
    unfold tickTimedFlags
    rw [hs1_timed]
    unfold tickTimedGo
    norm_num
    refine ⟨⟨rfl, rfl⟩, rfl⟩
  have hgo1 : goTo d rooms r1 false s1 =
      ({ regenMana d
          { s1 with timedFlags := [(F, 1)], flags := s1.flags } with
         currentRoomId := some r1, currentBattle := none }, []) := by
    unfold goTo
    rw [if_neg (by simp [hr1]), htick1]
    rfl
  rw [hgo1]
  set s2 : GameState :=
    { regenMana d { s1 with timedFlags := [(F, 1)], flags := s1.flags } with
      currentRoomId := some r1, currentBattle := none } with hs2
  have hs2_timed : s2.timedFlags = [(F, 1)] := by
    rw [hs2]
    show (regenMana d _).timedFlags = _
    rw [regenMana_timedFlags]
  have hs2_flags : s2.flags = sf.flags := by
    rw [hs2]
    show (regenMana d _).flags = _
    rw [regenMana_flags, hs1_flags]
  refine ⟨⟨hs2_timed, by rw [hs2_flags]; exact hflags_get, rfl⟩, ?_⟩
  -- second transition
  have hpresent : (dget? s2.flags F).isSome = true := by
    rw [hs2_flags, hflags_get]
    rfl
  have htick2 : tickTimedFlags s2 =
      ({ s2 with timedFlags := [], flags := dpop s2.flags F },
       [humanFlagName F ++ " fades."]) := by
    unfold tickTimedFlags
    rw [hs2_timed]
    unfold tickTimedGo
    norm_num
    rw [hpresent]
    unfold tickTimedGo
    norm_num
  have hgo2 : goTo d rooms r2 false s2 =
      ({ regenMana d
          { s2 with timedFlags := [], flags := dpop s2.flags F } with
         currentRoomId := some r2, currentBattle := none },
       [humanFlagName F ++ " fades."]) := by
    unfold goTo
    rw [if_neg (by simp [hr2]), htick2]
    rfl
  rw [hgo2]
  refine ⟨?_, ?_, rfl⟩
  · show (regenMana d _).timedFlags = []
    rw [regenMana_timedFlags]
  · show dget? (regenMana d _).flags F = none
    rw [regenMana_flags]
    show dget? (dpop s2.flags F) F = none
    rw [hs2_flags]
    exact dget?_dpop_self sf.flags F hflags_nd

/-- Witness for C7 from the starting state, walking hall then crypt. -/
theorem timed_flag_expires_on_second_transition_witness :
    ((initialState STARTING_STATS).timedFlags = [] ∧
      (((initialState STARTING_STATS).flags.map Prod.fst).Nodup) ∧
      "hall" ∈ ["hall", "crypt"] ∧ "crypt" ∈ ["hall", "crypt"]) ∧
      (goTo {} ["hall", "crypt"] "crypt" false
        (goTo {} ["hall", "crypt"] "hall" false
          (applyOptionEffects {} (timedFlagOption "ward" 1)
            (initialState STARTING_STATS) zeroDrawRng).1).1).2 =
        [humanFlagName "ward" ++ " fades."] :=
  ⟨⟨rfl, by decide, by decide, by decide⟩,
   (timed_flag_expires_on_second_transition {}
      (initialState STARTING_STATS) zeroDrawRng "ward" 1
      ["hall", "crypt"] "hall" "crypt" rfl (by decide) (by decide)
      (by decide)).2.2.2.2⟩

end LevelKit
